import Mathlib

/-
  Verification of the GAS-DB Collection runtime (src/src/04_core/Collection.js).

  The Collection class is the only component present in the source tree; its
  collaborators (DocumentOperations, QueryEngine, UpdateEngine, Validate,
  CollectionMetadata, FileService, MasterIndex, LockService) are modelled from
  the specification, each carrying a doc comment that says so.  Collection's
  own methods are transcribed line by line from Collection.js.

  JSON values are modelled by an inductive type; JS objects become ordered
  association lists (JS objects preserve insertion order).  Machine effects are
  made explicit: the collection state carries the backing blob, counters of
  FileService reads/writes and of LockService acquisitions, and the
  master-index entry for this collection.
-/

deriving instance DecidableEq for Except

namespace GASDB

mutual
/-- A JSON-like value as stored in a collection document.  Numbers are
modelled as integers (no claim exercises fractional values); dates and
NaN-like specials are outside the modelled fragment.  Nested objects and
arrays use the mutual types below so that decidable equality (the deep
structural equality of the spec, on insertion-ordered objects) derives. -/
inductive Value where
  | vNull : Value
  | vBool : Bool → Value
  | vNum : Int → Value
  | vStr : String → Value
  | vArr : ValueList → Value
  | vObj : ValueFields → Value

/-- Elements of a JSON array. -/
inductive ValueList where
  | nil : ValueList
  | cons : Value → ValueList → ValueList

/-- Fields of a nested JSON object, in insertion order. -/
inductive ValueFields where
  | nil : ValueFields
  | cons : String → Value → ValueFields → ValueFields
end

deriving instance DecidableEq for Value, ValueList, ValueFields
deriving instance Repr for Value, ValueList, ValueFields

/-- The fields of a nested object as an association list. -/
def ValueFields.toList : ValueFields → List (String × Value)
  | ValueFields.nil => []
  | ValueFields.cons k v rest => (k, v) :: rest.toList

/-- Build a nested object from an association list. -/
def ValueFields.ofList : List (String × Value) → ValueFields
  | [] => ValueFields.nil
  | (k, v) :: rest => ValueFields.cons k v (ValueFields.ofList rest)

/-- A document: the field list of a JSON object, in insertion order. -/
abbrev Doc := List (String × Value)

/-- A filter object, as passed to find/delete/count (implicit-equality
field predicates). -/
abbrev Filter := List (String × Value)

/-- An update object: either operator keys (all starting with a dollar) or a
plain replacement document. -/
abbrev Update := List (String × Value)

/-- The in-memory documents map of a collection: id keyed, insertion ordered
(JS object `this._documents`). -/
abbrev DocsMap := List (String × Doc)

/-- Field lookup on a JS object: first entry with the given key. -/
def lookupField (fields : List (String × Value)) (k : String) : Option Value :=
  (fields.find? (fun kv => kv.1 = k)).map (fun kv => kv.2)

/-- JS property assignment `obj[k] = v`: replaces the value in place when the
key exists, appends otherwise. -/
def objSet (fields : List (String × Value)) (k : String) (v : Value) :
    List (String × Value) :=
  if (fields.find? (fun kv => kv.1 = k)).isSome then
    fields.map (fun kv => if kv.1 = k then (k, v) else kv)
  else
    fields ++ [(k, v)]

/-- JS `delete obj[k]`. -/
def objRemove (fields : List (String × Value)) (k : String) :
    List (String × Value) :=
  fields.filter (fun kv => kv.1 ≠ k)

/-- Modelled from the spec: QueryEngine.matches restricted to the fragment the
verified claims exercise — the empty filter and implicit-equality field
predicates on top-level keys, equality being deep structural equality
(§4.2: "Empty filter {} matches every document"; "the value is a literal
(implicit equality)").  Operator predicates, logical operators and dotted
paths are not exercised by any claim and are omitted. -/
def queryMatches (d : Doc) (f : Filter) : Bool :=
  f.all (fun kv => lookupField d kv.1 = some kv.2)

/-- Document lookup in the documents map (`this._documents[id]`). -/
def lookupDoc (docs : DocsMap) (id : String) : Option Doc :=
  (docs.find? (fun kd => kd.1 = id)).map (fun kd => kd.2)

/-- Replace the document stored under an existing id, in place. -/
def mapSet (docs : DocsMap) (id : String) (d : Doc) : DocsMap :=
  docs.map (fun kd => if kd.1 = id then (id, d) else kd)

/-- The string under a document's `_id` key (empty when absent or non-string),
as JS `doc._id` coerced for use as a map key. -/
def docIdStr (d : Doc) : String :=
  match lookupField d "_id" with
  | some (Value.vStr s) => s
  | _ => ""

/-- JS `key.startsWith("$")`: the key's first character is a dollar sign
(operator marker, spec §3). -/
def isOpKey (k : String) : Bool :=
  match k.data with
  | [] => false
  | c :: _ => c = '$'

/-- Errors surfaced by the modelled operations (kinds from spec §7). -/
inductive DBError where
  | invalidArgument : String → DBError
  | invalidDocument : String → DBError
  | duplicateKey : String → DBError
  | invalidUpdate : String → DBError
  | immutableField : String → DBError
deriving DecidableEq, Repr

/-- Result of insertOne. -/
structure InsertResult where
  insertedId : String
  acknowledged : Bool
deriving DecidableEq, Repr

/-- Result of updateOne / updateMany / replaceOne. -/
structure UpdateResult where
  matchedCount : Nat
  modifiedCount : Nat
  acknowledged : Bool
deriving DecidableEq, Repr

/-- Result of deleteOne. -/
structure DeleteResult where
  deletedCount : Nat
  acknowledged : Bool
deriving DecidableEq, Repr

/-- Modelled from the spec: CollectionMetadata (§3) — per-collection
statistics with a modification token.  `lastUpdated` is modelled as a
monotone counter bumped by `updateLastModified`; the fresh opaque
`modificationToken` regenerated on each metadata bump is modelled as a
counter as well (§4.5: "bumps CollectionMetadata (lastUpdated,
documentCount, fresh modificationToken)").  `name` and `fileId` are the
constructor arguments Collection._loadData passes. -/
structure CollMeta where
  name : String
  fileId : String
  lastUpdated : Nat
  documentCount : Nat
  modificationToken : Nat
deriving DecidableEq, Repr

/-- The on-disk collection blob `{documents, metadata}` (§3). -/
structure FileBlob where
  documents : DocsMap
  metadata : CollMeta
deriving DecidableEq, Repr

/-- The observable state of one Collection instance together with its
backend.  The JS fields `_loaded`, `_dirty`, `_documents`,
`_collectionMetadata` are carried directly; the backend effects are made
countable: `fileReads` / `fileWrites` count FileService.readFile /
writeFile calls on the collection blob, `masterIndex` is this collection's
entry in the MasterIndex, and `lockEvents` counts LockService lock
acquisitions performed by collection operations.  `nextId` feeds the
generated-id counter of DocumentOperations (modelling its UUID source). -/
structure CollState where
  loaded : Bool
  dirty : Bool
  documents : DocsMap
  collectionMetadata : Option CollMeta
  blob : FileBlob
  fileReads : Nat
  fileWrites : Nat
  masterIndex : Option CollMeta
  lockEvents : Nat
  nextId : Nat
deriving DecidableEq, Repr

namespace Validate

/-- Modelled from the spec: Validate.object with allowEmpty=false as used by
updateOne/updateMany/replaceOne ("disallow empty objects", Collection.js
line 294).  Inputs are typed objects here, so only the emptiness check
remains. -/
def objectNonEmpty (o : List (String × Value)) (name : String) :
    Except DBError Unit :=
  if o.isEmpty then Except.error (DBError.invalidArgument name)
  else Except.ok ()

/-- Modelled from the spec: Validate.validateUpdateObject (Collection.js
lines 305/447/501) — forbids mixing operator keys with plain fields; with
requireOperators every key must be an operator; with forbidOperators no key
may be one (§4.3: "top-level keys MUST all start with `$`; mixing operators
with plain fields → InvalidUpdate"). -/
def validateUpdateObject (u : Update) (requireOperators forbidOperators : Bool) :
    Except DBError Unit :=
  let hasOps := u.any (fun kv => isOpKey kv.1)
  let hasFields := u.any (fun kv => ¬ isOpKey kv.1)
  if hasOps ∧ hasFields then Except.error (DBError.invalidArgument "update mixes operators and fields")
  else if requireOperators ∧ hasFields then Except.error (DBError.invalidArgument "update requires operators")
  else if forbidOperators ∧ hasOps then Except.error (DBError.invalidArgument "replacement must not contain operators")
  else Except.ok ()

end Validate

/-- Collection._validateFilter (Collection.js lines 199-209): the filter must
be an object (guaranteed by typing here) and, when an `_id` key is present,
its value must be a non-empty string (Validate.nonEmptyString). -/
def validateFilter (f : Filter) : Except DBError Unit :=
  if (f.map Prod.fst).contains "_id" then
    match lookupField f "_id" with
    | some (Value.vStr s) =>
        if s = "" then Except.error (DBError.invalidArgument "filter id empty")
        else Except.ok ()
    | _ => Except.error (DBError.invalidArgument "filter id not a string")
  else Except.ok ()

mutual
/-- Modelled from the spec: detection of operator-shaped keys at any depth in
a stored document (§3: "A document never contains operator-shaped keys
(`$*`) at any depth"). -/
def hasOpKeys : Value → Bool
  | Value.vNull => false
  | Value.vBool _ => false
  | Value.vNum _ => false
  | Value.vStr _ => false
  | Value.vArr xs => hasOpKeysList xs
  | Value.vObj fs => hasOpKeysFields fs

/-- Operator-shaped-key detection inside an array. -/
def hasOpKeysList : ValueList → Bool
  | ValueList.nil => false
  | ValueList.cons v rest => hasOpKeys v || hasOpKeysList rest

/-- Operator-shaped-key detection inside a nested object. -/
def hasOpKeysFields : ValueFields → Bool
  | ValueFields.nil => false
  | ValueFields.cons k v rest => isOpKey k || hasOpKeys v || hasOpKeysFields rest
end

/-- Operator-shaped keys anywhere in a document. -/
def docHasOpKeys (d : Doc) : Bool :=
  d.any (fun kv => isOpKey kv.1 || hasOpKeys kv.2)

namespace UpdateEngine

/-- Modelled from the spec: one path/argument entry of an update operator
(§4.3).  The fragment the claims exercise: `$set` (assign at path),
`$unset` (remove, no-op when absent), `$inc` (add, missing treated as 0,
current non-number → InvalidUpdate); paths are top-level keys — dotted
paths and the array operators are not exercised by any claim.  `_id` is
immutable: touching it fails with ImmutableField (§4.3). -/
def applyOne (d : Doc) (op : String) (path : String) (v : Value) :
    Except DBError Doc :=
  if path = "_id" then Except.error (DBError.immutableField "id is immutable")
  else if op = "$set" then Except.ok (objSet d path v)
  else if op = "$unset" then Except.ok (objRemove d path)
  else if op = "$inc" then
    match v, lookupField d path with
    | Value.vNum n, some (Value.vNum m) => Except.ok (objSet d path (Value.vNum (m + n)))
    | Value.vNum n, none => Except.ok (objSet d path (Value.vNum n))
    | Value.vNum _, some _ => Except.error (DBError.invalidUpdate "inc on non-number")
    | _, _ => Except.error (DBError.invalidUpdate "inc argument not a number")
  else Except.error (DBError.invalidUpdate "unsupported operator")

/-- Modelled from the spec: apply one operator key to a document — the
operator's value must be an object of path/argument entries, applied in
insertion order (§4.3). -/
def applyOp (d : Doc) (op : String) (arg : Value) : Except DBError Doc :=
  match arg with
  | Value.vObj entries =>
      entries.toList.foldlM (fun acc pv => applyOne acc op pv.1 pv.2) d
  | _ => Except.error (DBError.invalidUpdate "operator argument not an object")

/-- Modelled from the spec: UpdateEngine.apply — operators applied in
declaration order over a copy; on failure the original document is
untouched (§4.3, modelled by the Except short-circuit). -/
def applyOperators (d : Doc) (u : Update) : Except DBError Doc :=
  u.foldlM (fun acc kv => applyOp acc kv.1 kv.2) d

end UpdateEngine

namespace DocumentOperations

/-- Modelled from the spec: DocumentOperations.insertDocument (§4.4 insert) —
assigns an id when absent (UUID-shaped, modelled by a counter), rejects a
present `_id` that is not a non-empty string (§3: `_id` is mandatory,
unique, non-empty string), rejects duplicates with DuplicateKey and
operator-shaped keys anywhere with InvalidDocument.  Returns the stored
document, the new map (appended in insertion order) and the next counter. -/
def insertDocument (docs : DocsMap) (nextId : Nat) (doc : Doc) :
    Except DBError (Doc × DocsMap × Nat) :=
  if docHasOpKeys doc then Except.error (DBError.invalidDocument "operator keys in document")
  else
    match lookupField doc "_id" with
    | some (Value.vStr s) =>
        if s = "" then Except.error (DBError.invalidDocument "empty id")
        else if (lookupDoc docs s).isSome then Except.error (DBError.duplicateKey s)
        else Except.ok (doc, docs ++ [(s, doc)], nextId)
    | some _ => Except.error (DBError.invalidDocument "id not a string")
    | none =>
        let s := "id-" ++ toString nextId
        let doc2 := doc ++ [("_id", Value.vStr s)]
        if (lookupDoc docs s).isSome then Except.error (DBError.duplicateKey s)
        else Except.ok (doc2, docs ++ [(s, doc2)], nextId + 1)

/-- DocumentOperations.findDocumentById: direct map lookup. -/
def findDocumentById (docs : DocsMap) (id : String) : Option Doc :=
  lookupDoc docs id

/-- DocumentOperations.findAllDocuments: all documents in insertion order. -/
def findAllDocuments (docs : DocsMap) : List Doc :=
  docs.map Prod.snd

/-- Modelled from the spec: DocumentOperations.findByQuery — the first
document matching the filter via QueryEngine (§4.2 findFirst). -/
def findByQuery (docs : DocsMap) (f : Filter) : Option Doc :=
  (findAllDocuments docs).find? (fun d => queryMatches d f)

/-- Modelled from the spec: DocumentOperations.findMultipleByQuery — all
matching documents via QueryEngine (§4.2 findAll). -/
def findMultipleByQuery (docs : DocsMap) (f : Filter) : List Doc :=
  (findAllDocuments docs).filter (fun d => queryMatches d f)

/-- Modelled from the spec: DocumentOperations.countByQuery (§4.2 count). -/
def countByQuery (docs : DocsMap) (f : Filter) : Nat :=
  (findMultipleByQuery docs f).length

/-- DocumentOperations.countDocuments: size of the documents map. -/
def countAll (docs : DocsMap) : Nat :=
  docs.length

/-- Modelled from the spec: DocumentOperations.deleteDocument (§4.4
deleteById) — removes the entry when present; `deletedCount` 1 or 0. -/
def deleteDocument (docs : DocsMap) (id : String) : Nat × DocsMap :=
  if (lookupDoc docs id).isSome then (1, docs.filter (fun kd => kd.1 ≠ id))
  else (0, docs)

/-- Modelled from the spec: DocumentOperations.updateDocumentWithOperators
(§4.4 updateByIdWithOperators) — delegates to UpdateEngine;
`modifiedCount = 0` iff the resulting document is structurally equal to the
prior one; an absent id yields a zero result (the Collection callers read
`result.modifiedCount` and treat 0 as no match). -/
def updateDocumentWithOperators (docs : DocsMap) (id : String) (u : Update) :
    Except DBError (Nat × DocsMap) :=
  match lookupDoc docs id with
  | none => Except.ok (0, docs)
  | some d =>
      match UpdateEngine.applyOperators d u with
      | Except.error e => Except.error e
      | Except.ok d2 =>
          if d2 = d then Except.ok (0, docs)
          else Except.ok (1, mapSet docs id d2)

/-- Modelled from the spec: DocumentOperations.replaceDocument (§4.4
replaceById) — an absent id yields a zero result; the replacement must not
contain operator-shaped keys; its `_id`, if any, must equal the target id
(else InvalidArgument); the stored document is the replacement with `_id`
reinstated, and `modifiedCount = 0` iff it is structurally equal to the
prior one. -/
def replaceDocument (docs : DocsMap) (id : String) (doc : Doc) :
    Except DBError (Nat × DocsMap) :=
  match lookupDoc docs id with
  | none => Except.ok (0, docs)
  | some old =>
      if docHasOpKeys doc then Except.error (DBError.invalidDocument "operator keys in replacement")
      else
        match lookupField doc "_id" with
        | some (Value.vStr s) =>
            if s ≠ id then Except.error (DBError.invalidArgument "id mismatch")
            else if objSet doc "_id" (Value.vStr id) = old then Except.ok (0, docs)
            else Except.ok (1, mapSet docs id (objSet doc "_id" (Value.vStr id)))
        | some _ => Except.error (DBError.invalidArgument "id not a string")
        | none =>
            if objSet doc "_id" (Value.vStr id) = old then Except.ok (0, docs)
            else Except.ok (1, mapSet docs id (objSet doc "_id" (Value.vStr id)))

/-- DocumentOperations.updateDocument with a replacement document, as called
by Collection._updateOneWithReplacement — same behaviour as
replaceDocument. -/
def updateDocument (docs : DocsMap) (id : String) (doc : Doc) :
    Except DBError (Nat × DocsMap) :=
  replaceDocument docs id doc

end DocumentOperations

/-- Collection._loadData (Collection.js lines 79-126): one FileService read;
the in-memory documents and CollectionMetadata are initialised from the
blob.  The blob is well-typed here, so the invalid-structure error path is
unreachable in the model. -/
def loadData (s : CollState) : CollState :=
  { s with
    documents := s.blob.documents
    collectionMetadata := some s.blob.metadata
    fileReads := s.fileReads + 1 }

/-- Collection._ensureLoaded (lines 67-72): lazy loading. -/
def ensureLoaded (s : CollState) : CollState :=
  if s.loaded then s else { loadData s with loaded := true }

/-- Collection._saveData (lines 133-156): one FileService write of
`{documents, metadata}`, then the dirty flag clears.  Writes always succeed
in the model (the write-failure path is not exercised by any claim).  The
metadata is present whenever _saveData is reached through the public API;
the unreachable absent case leaves the state unchanged. -/
def saveData (s : CollState) : CollState :=
  match s.collectionMetadata with
  | some m =>
      { s with
        blob := { documents := s.documents, metadata := m }
        dirty := false
        fileWrites := s.fileWrites + 1 }
  | none => s

/-- Collection._markDirty (lines 162-165). -/
def markDirty (s : CollState) : CollState :=
  { s with dirty := true }

/-- Collection._updateMetadata (lines 172-190): ensure loaded, set the
document count when given, bump lastUpdated (and the fresh modification
token, per spec §4.5), and push the full metadata object to
MasterIndex.updateCollectionMetadata. -/
def updateMetadata (s : CollState) (count : Option Nat) : CollState :=
  let s := ensureLoaded s
  match s.collectionMetadata with
  | none => s
  | some m =>
      let m := match count with
        | some c => { m with documentCount := c }
        | none => m
      let m := { m with
        lastUpdated := m.lastUpdated + 1
        modificationToken := m.modificationToken + 1 }
      { s with collectionMetadata := some m, masterIndex := some m }

/-- The `filterOrId` argument of updateOne/replaceOne: a document id string
or a filter object (`typeof filterOrId === "string"` dispatch,
Collection.js line 297). -/
inductive FilterOrId where
  | byId : String → FilterOrId
  | byFilter : Filter → FilterOrId
deriving DecidableEq, Repr

/-- The filter an id-or-filter argument denotes (`{_id: filterOrId}` for the
string form, Collection.js line 298). -/
def FilterOrId.toFilter : FilterOrId → Filter
  | FilterOrId.byId i => [("_id", Value.vStr i)]
  | FilterOrId.byFilter f => f

/-- Collection.insertOne (Collection.js lines 218-233): ensure loaded, insert
through DocumentOperations, set documentCount to the map size, mark dirty,
return `{insertedId, acknowledged}`. -/
def insertOne (s : CollState) (doc : Doc) :
    Except DBError InsertResult × CollState :=
  let s := ensureLoaded s
  match DocumentOperations.insertDocument s.documents s.nextId doc with
  | Except.error e => (Except.error e, s)
  | Except.ok (inserted, docs2, nid) =>
      let s := { s with documents := docs2, nextId := nid }
      let s := updateMetadata s (some docs2.length)
      let s := markDirty s
      (Except.ok { insertedId := docIdStr inserted, acknowledged := true }, s)

/-- Collection.findOne (Collection.js lines 241-260): ensure loaded, validate
the filter, then dispatch — empty filter returns the first document, the
one-key `{_id: "<string>"}` form uses the direct lookup, anything else goes
through the QueryEngine.  (A one-key `_id` filter with a non-string value
cannot reach the dispatch: _validateFilter rejects it.) -/
def findOne (s : CollState) (f : Filter) :
    Except DBError (Option Doc) × CollState :=
  let s := ensureLoaded s
  match validateFilter f with
  | Except.error e => (Except.error e, s)
  | Except.ok _ =>
      match f with
      | [] => (Except.ok (DocumentOperations.findAllDocuments s.documents).head?, s)
      | [("_id", Value.vStr idv)] =>
          (Except.ok (DocumentOperations.findDocumentById s.documents idv), s)
      | _ => (Except.ok (DocumentOperations.findByQuery s.documents f), s)

/-- Collection.find (Collection.js lines 268-281): empty filter returns all
documents, otherwise the QueryEngine path. -/
def find (s : CollState) (f : Filter) :
    Except DBError (List Doc) × CollState :=
  let s := ensureLoaded s
  match validateFilter f with
  | Except.error e => (Except.error e, s)
  | Except.ok _ =>
      match f with
      | [] => (Except.ok (DocumentOperations.findAllDocuments s.documents), s)
      | _ => (Except.ok (DocumentOperations.findMultipleByQuery s.documents f), s)

/-- Collection._updateOneWithOperators (Collection.js lines 325-373): the
one-key `{_id: …}` filter goes straight to
DocumentOperations.updateDocumentWithOperators and reports
`matchedCount = modifiedCount > 0 ? 1 : 0`; other filters resolve the first
match through the QueryEngine, report `matchedCount = 0` on no match and
`matchedCount = 1` otherwise.  Metadata bump and dirty mark happen only
when `modifiedCount > 0`. -/
def updateOneWithOperators (s : CollState) (f : Filter) (u : Update) :
    Except DBError UpdateResult × CollState :=
  match f with
  | [("_id", Value.vStr idv)] =>
      (match DocumentOperations.updateDocumentWithOperators s.documents idv u with
       | Except.error e => (Except.error e, s)
       | Except.ok (modified, docs2) =>
           let s := { s with documents := docs2 }
           let s := if modified > 0 then markDirty (updateMetadata s none) else s
           (Except.ok { matchedCount := if modified > 0 then 1 else 0,
                        modifiedCount := modified, acknowledged := true }, s))
  | _ =>
      match DocumentOperations.findByQuery s.documents f with
      | none =>
          (Except.ok { matchedCount := 0, modifiedCount := 0, acknowledged := true }, s)
      | some md =>
          match DocumentOperations.updateDocumentWithOperators s.documents (docIdStr md) u with
          | Except.error e => (Except.error e, s)
          | Except.ok (modified, docs2) =>
              let s := { s with documents := docs2 }
              let s := if modified > 0 then markDirty (updateMetadata s none) else s
              (Except.ok { matchedCount := 1,
                           modifiedCount := modified, acknowledged := true }, s)

/-- Collection._updateOneWithReplacement (Collection.js lines 382-430): the
same dispatch with DocumentOperations.updateDocument (replacement). -/
def updateOneWithReplacement (s : CollState) (f : Filter) (u : Update) :
    Except DBError UpdateResult × CollState :=
  match f with
  | [("_id", Value.vStr idv)] =>
      (match DocumentOperations.updateDocument s.documents idv u with
       | Except.error e => (Except.error e, s)
       | Except.ok (modified, docs2) =>
           let s := { s with documents := docs2 }
           let s := if modified > 0 then markDirty (updateMetadata s none) else s
           (Except.ok { matchedCount := if modified > 0 then 1 else 0,
                        modifiedCount := modified, acknowledged := true }, s))
  | _ =>
      match DocumentOperations.findByQuery s.documents f with
      | none =>
          (Except.ok { matchedCount := 0, modifiedCount := 0, acknowledged := true }, s)
      | some md =>
          match DocumentOperations.updateDocument s.documents (docIdStr md) u with
          | Except.error e => (Except.error e, s)
          | Except.ok (modified, docs2) =>
              let s := { s with documents := docs2 }
              let s := if modified > 0 then markDirty (updateMetadata s none) else s
              (Except.ok { matchedCount := 1,
                           modifiedCount := modified, acknowledged := true }, s)

/-- Collection.updateOne (Collection.js lines 290-316): ensure loaded,
validate the update is a non-empty object, normalise `filterOrId`
(validating the filter only in the filter form), validate the update
object's structure, then dispatch on the presence of operator keys. -/
def updateOne (s : CollState) (foi : FilterOrId) (u : Update) :
    Except DBError UpdateResult × CollState :=
  let s := ensureLoaded s
  match Validate.objectNonEmpty u "update" with
  | Except.error e => (Except.error e, s)
  | Except.ok _ =>
      let f := foi.toFilter
      match (match foi with
             | FilterOrId.byId _ => Except.ok ()
             | FilterOrId.byFilter g => validateFilter g) with
      | Except.error e => (Except.error e, s)
      | Except.ok _ =>
          match Validate.validateUpdateObject u false false with
          | Except.error e => (Except.error e, s)
          | Except.ok _ =>
              if u.any (fun kv => isOpKey kv.1) then
                updateOneWithOperators s f u
              else
                updateOneWithReplacement s f u

/-- The loop body of Collection.updateMany (Collection.js lines 466-473):
apply the operators to each matched document's id in order, accumulating
`modifiedCount`; an engine error aborts the loop, keeping the documents
updated so far (the JS exception propagates mid-loop). -/
def applyLoop (docs : DocsMap) (matching : List Doc) (u : Update) (acc : Nat) :
    Except DBError Nat × DocsMap :=
  match matching with
  | [] => (Except.ok acc, docs)
  | d :: rest =>
      match DocumentOperations.updateDocumentWithOperators docs (docIdStr d) u with
      | Except.error e => (Except.error e, docs)
      | Except.ok (m, docs2) => applyLoop docs2 rest u (acc + m)

/-- Collection.updateMany (Collection.js lines 439-485): validate filter and
update (operators required), collect all matches first, return zeros when
none, otherwise apply the operators per document and bump metadata and the
dirty flag only when something was modified. -/
def updateMany (s : CollState) (f : Filter) (u : Update) :
    Except DBError UpdateResult × CollState :=
  let s := ensureLoaded s
  match validateFilter f with
  | Except.error e => (Except.error e, s)
  | Except.ok _ =>
      match Validate.objectNonEmpty u "update" with
      | Except.error e => (Except.error e, s)
      | Except.ok _ =>
          match Validate.validateUpdateObject u true false with
          | Except.error e => (Except.error e, s)
          | Except.ok _ =>
              let matching := DocumentOperations.findMultipleByQuery s.documents f
              if matching.length = 0 then
                (Except.ok { matchedCount := 0, modifiedCount := 0, acknowledged := true }, s)
              else
                match applyLoop s.documents matching u 0 with
                | (Except.error e, docs2) => (Except.error e, { s with documents := docs2 })
                | (Except.ok modified, docs2) =>
                    let s := { s with documents := docs2 }
                    let s := if modified > 0 then markDirty (updateMetadata s none) else s
                    (Except.ok { matchedCount := matching.length,
                                 modifiedCount := modified, acknowledged := true }, s)

/-- Collection.replaceOne (Collection.js lines 494-555): validate the
replacement is a non-empty object without operators, normalise
`filterOrId`, then the same ID-form/Query dispatch calling
DocumentOperations.replaceDocument. -/
def replaceOne (s : CollState) (foi : FilterOrId) (doc : Doc) :
    Except DBError UpdateResult × CollState :=
  let s := ensureLoaded s
  match Validate.objectNonEmpty doc "doc" with
  | Except.error e => (Except.error e, s)
  | Except.ok _ =>
      match Validate.validateUpdateObject doc false true with
      | Except.error e => (Except.error e, s)
      | Except.ok _ =>
          let f := foi.toFilter
          match (match foi with
                 | FilterOrId.byId _ => Except.ok ()
                 | FilterOrId.byFilter g => validateFilter g) with
          | Except.error e => (Except.error e, s)
          | Except.ok _ =>
              match f with
              | [("_id", Value.vStr idv)] =>
                  (match DocumentOperations.replaceDocument s.documents idv doc with
                   | Except.error e => (Except.error e, s)
                   | Except.ok (modified, docs2) =>
                       let s := { s with documents := docs2 }
                       let s := if modified > 0 then markDirty (updateMetadata s none) else s
                       (Except.ok { matchedCount := if modified > 0 then 1 else 0,
                                    modifiedCount := modified, acknowledged := true }, s))
              | _ =>
                  match DocumentOperations.findByQuery s.documents f with
                  | none =>
                      (Except.ok { matchedCount := 0, modifiedCount := 0, acknowledged := true }, s)
                  | some md =>
                      match DocumentOperations.replaceDocument s.documents (docIdStr md) doc with
                      | Except.error e => (Except.error e, s)
                      | Except.ok (modified, docs2) =>
                          let s := { s with documents := docs2 }
                          let s := if modified > 0 then markDirty (updateMetadata s none) else s
                          (Except.ok { matchedCount := 1,
                                       modifiedCount := modified, acknowledged := true }, s)

/-- Collection.deleteOne (Collection.js lines 563-634): empty filter deletes
the first document of the enumeration; the one-key `{_id: "<string>"}` form
deletes by direct lookup; other filters resolve the first match through the
QueryEngine.  On deletion the documentCount is recomputed from the map and
the collection marked dirty. -/
def deleteOne (s : CollState) (f : Filter) :
    Except DBError DeleteResult × CollState :=
  let s := ensureLoaded s
  match validateFilter f with
  | Except.error e => (Except.error e, s)
  | Except.ok _ =>
      match f with
      | [] =>
          (match DocumentOperations.findAllDocuments s.documents with
           | [] => (Except.ok { deletedCount := 0, acknowledged := true }, s)
           | d0 :: _ =>
               let (cnt, docs2) := DocumentOperations.deleteDocument s.documents (docIdStr d0)
               let s := { s with documents := docs2 }
               let s := if cnt > 0 then markDirty (updateMetadata s (some docs2.length)) else s
               (Except.ok { deletedCount := cnt, acknowledged := true }, s))
      | [("_id", Value.vStr idv)] =>
          let (cnt, docs2) := DocumentOperations.deleteDocument s.documents idv
          let s := { s with documents := docs2 }
          let s := if cnt > 0 then markDirty (updateMetadata s (some docs2.length)) else s
          (Except.ok { deletedCount := cnt, acknowledged := true }, s)
      | _ =>
          match DocumentOperations.findByQuery s.documents f with
          | none => (Except.ok { deletedCount := 0, acknowledged := true }, s)
          | some md =>
              let (cnt, docs2) := DocumentOperations.deleteDocument s.documents (docIdStr md)
              let s := { s with documents := docs2 }
              let s := if cnt > 0 then markDirty (updateMetadata s (some docs2.length)) else s
              (Except.ok { deletedCount := cnt, acknowledged := true }, s)

/-- Collection.countDocuments (Collection.js lines 642-655). -/
def countDocuments (s : CollState) (f : Filter) :
    Except DBError Nat × CollState :=
  let s := ensureLoaded s
  match validateFilter f with
  | Except.error e => (Except.error e, s)
  | Except.ok _ =>
      match f with
      | [] => (Except.ok (DocumentOperations.countAll s.documents), s)
      | _ => (Except.ok (DocumentOperations.countByQuery s.documents f), s)

/-- Collection.save (Collection.js lines 686-690): write through FileService
only when loaded and dirty. -/
def save (s : CollState) : CollState :=
  if s.loaded && s.dirty then saveData s else s

/-- The public (non-underscore) methods of the Collection class, in source
order (Collection.js). -/
def Collection.publicMethods : List String :=
  ["insertOne", "findOne", "find", "updateOne", "updateMany", "replaceOne",
   "deleteOne", "countDocuments", "getName", "getMetadata", "isDirty", "save"]

/-- Collection.findOne with the `{_id: "<string>"}` fast path removed: every
non-empty filter is evaluated through the QueryEngine.  This is the spec
side of the refinement claim about the dispatch optimisation (§4.5). -/
def findOneViaQueryEngine (s : CollState) (f : Filter) :
    Except DBError (Option Doc) × CollState :=
  let s := ensureLoaded s
  match validateFilter f with
  | Except.error e => (Except.error e, s)
  | Except.ok _ =>
      match f with
      | [] => (Except.ok (DocumentOperations.findAllDocuments s.documents).head?, s)
      | _ => (Except.ok (DocumentOperations.findByQuery s.documents f), s)

/-- Collection.deleteOne with the `{_id: "<string>"}` fast path removed:
every non-empty filter resolves its target through the QueryEngine.  Spec
side of the refinement claim about the dispatch optimisation (§4.5). -/
def deleteOneViaQueryEngine (s : CollState) (f : Filter) :
    Except DBError DeleteResult × CollState :=
  let s := ensureLoaded s
  match validateFilter f with
  | Except.error e => (Except.error e, s)
  | Except.ok _ =>
      match f with
      | [] =>
          (match DocumentOperations.findAllDocuments s.documents with
           | [] => (Except.ok { deletedCount := 0, acknowledged := true }, s)
           | d0 :: _ =>
               let (cnt, docs2) := DocumentOperations.deleteDocument s.documents (docIdStr d0)
               let s := { s with documents := docs2 }
               let s := if cnt > 0 then markDirty (updateMetadata s (some docs2.length)) else s
               (Except.ok { deletedCount := cnt, acknowledged := true }, s))
      | _ =>
          match DocumentOperations.findByQuery s.documents f with
          | none => (Except.ok { deletedCount := 0, acknowledged := true }, s)
          | some md =>
              let (cnt, docs2) := DocumentOperations.deleteDocument s.documents (docIdStr md)
              let s := { s with documents := docs2 }
              let s := if cnt > 0 then markDirty (updateMetadata s (some docs2.length)) else s
              (Except.ok { deletedCount := cnt, acknowledged := true }, s)

/-- Well-formedness of a documents map (spec §3 invariants): keys are
pairwise distinct and every stored document's `_id` is the string equal to
its map key. -/
def WF (docs : DocsMap) : Prop :=
  (docs.map Prod.fst).Nodup ∧
  ∀ kd ∈ docs, lookupField kd.2 "_id" = some (Value.vStr kd.1)

instance (docs : DocsMap) : Decidable (WF docs) := by
  unfold WF; infer_instance

/-- The count half of the clean-collection invariant: the in-memory
metadata is present and its documentCount equals the size of the documents
map. -/
def CountOk (s : CollState) : Prop :=
  ∃ m, s.collectionMetadata = some m ∧ m.documentCount = s.documents.length

/-- The clean-collection invariant as a precondition: the count matches in
memory once loaded, and on the blob. -/
def CountInv (s : CollState) : Prop :=
  (s.loaded = true → CountOk s) ∧
  s.blob.metadata.documentCount = s.blob.documents.length

instance (s : CollState) : Decidable (CountOk s) := by
  unfold CountOk
  exact match s.collectionMetadata with
    | none => Decidable.isFalse (by simp)
    | some m => decidable_of_iff (m.documentCount = s.documents.length) (by simp)

instance (s : CollState) : Decidable (CountInv s) := by
  unfold CountInv; infer_instance

/-- Fixture metadata for concrete witnesses. -/
def metaW : CollMeta :=
  { name := "c", fileId := "f", lastUpdated := 0, documentCount := 1,
    modificationToken := 0 }

/-- Fixture document with id "a". -/
def docA : Doc := [("_id", Value.vStr "a"), ("n", Value.vNum 1)]

/-- Fixture loaded clean state holding exactly docA. -/
def stateW : CollState :=
  { loaded := true, dirty := false, documents := [("a", docA)],
    collectionMetadata := some metaW,
    blob := { documents := [("a", docA)], metadata := metaW },
    fileReads := 0, fileWrites := 0, masterIndex := none, lockEvents := 0,
    nextId := 0 }

/-- Fixture unloaded state over the same blob. -/
def stateU : CollState :=
  { stateW with loaded := false, documents := [], collectionMetadata := none }

/-- Fixture empty loaded state. -/
def stateE : CollState :=
  { stateW with
    documents := []
    collectionMetadata := some { metaW with documentCount := 0 }
    blob := { documents := [], metadata := { metaW with documentCount := 0 } } }

theorem ensureLoaded_of_loaded {s : CollState} (hl : s.loaded = true) :
    ensureLoaded s = s := by
  unfold ensureLoaded; rw [hl]; rfl

theorem ensureLoaded_fileWrites (s : CollState) :
    (ensureLoaded s).fileWrites = s.fileWrites := by
  unfold ensureLoaded; split <;> rfl

theorem ensureLoaded_lockEvents (s : CollState) :
    (ensureLoaded s).lockEvents = s.lockEvents := by
  unfold ensureLoaded; split <;> rfl

theorem ensureLoaded_loaded (s : CollState) :
    (ensureLoaded s).loaded = true := by
  unfold ensureLoaded; split <;> simp_all [loadData]

theorem updateMetadata_fileWrites (s : CollState) (c : Option Nat) :
    (updateMetadata s c).fileWrites = s.fileWrites := by
  unfold updateMetadata
  cases c <;> cases h : (ensureLoaded s).collectionMetadata <;>
    simp [h, ensureLoaded_fileWrites]

theorem updateMetadata_lockEvents (s : CollState) (c : Option Nat) :
    (updateMetadata s c).lockEvents = s.lockEvents := by
  unfold updateMetadata
  cases c <;> cases h : (ensureLoaded s).collectionMetadata <;>
    simp [h, ensureLoaded_lockEvents]

theorem markDirty_fileWrites (s : CollState) :
    (markDirty s).fileWrites = s.fileWrites := rfl

theorem markDirty_lockEvents (s : CollState) :
    (markDirty s).lockEvents = s.lockEvents := rfl

theorem markDirty_documents (s : CollState) :
    (markDirty s).documents = s.documents := rfl

theorem markDirty_loaded (s : CollState) :
    (markDirty s).loaded = s.loaded := rfl

theorem markDirty_dirty (s : CollState) : (markDirty s).dirty = true := rfl

theorem updateMetadata_documents {s : CollState} (hl : s.loaded = true)
    (c : Option Nat) : (updateMetadata s c).documents = s.documents := by
  unfold updateMetadata
  rw [ensureLoaded_of_loaded hl]
  cases c <;> cases h : s.collectionMetadata <;> simp [h]

theorem updateMetadata_loaded (s : CollState) (c : Option Nat) :
    (updateMetadata s c).loaded = true := by
  unfold updateMetadata
  cases c <;> cases h : (ensureLoaded s).collectionMetadata <;>
    simp [h, ensureLoaded_loaded]

theorem updateMetadata_dirty {s : CollState} (hl : s.loaded = true)
    (c : Option Nat) : (updateMetadata s c).dirty = s.dirty := by
  unfold updateMetadata
  rw [ensureLoaded_of_loaded hl]
  cases c <;> cases h : s.collectionMetadata <;> simp [h]

theorem updateMetadata_eq {s : CollState} {m : CollMeta} (hl : s.loaded = true)
    (hm : s.collectionMetadata = some m) (c : Option Nat) :
    updateMetadata s c =
      { s with
        collectionMetadata := some { m with
          lastUpdated := m.lastUpdated + 1
          documentCount := c.getD m.documentCount
          modificationToken := m.modificationToken + 1 }
        masterIndex := some { m with
          lastUpdated := m.lastUpdated + 1
          documentCount := c.getD m.documentCount
          modificationToken := m.modificationToken + 1 } } := by
  unfold updateMetadata
  rw [ensureLoaded_of_loaded hl]
  cases c <;> simp [hm]

theorem ensureLoaded_CountOk {s : CollState} (h : CountInv s) :
    CountOk (ensureLoaded s) := by
  unfold ensureLoaded
  by_cases hl : s.loaded = true
  · rw [if_pos hl]; exact h.1 hl
  · rw [if_neg hl]
    exact ⟨s.blob.metadata, rfl, h.2⟩

theorem countByQuery_eq_zero {docs : DocsMap} {f : Filter}
    (h : ∀ d ∈ DocumentOperations.findAllDocuments docs, queryMatches d f = false) :
    DocumentOperations.countByQuery docs f = 0 := by
  unfold DocumentOperations.countByQuery DocumentOperations.findMultipleByQuery
  rw [List.length_eq_zero, List.filter_eq_nil]
  exact fun d hd => by simp [h d hd]

theorem lookupDoc_isSome_of_mem {docs : DocsMap} {k : String} {d : Doc}
    (h : (k, d) ∈ docs) : (lookupDoc docs k).isSome := by
  unfold lookupDoc
  have : (docs.find? (fun kd => kd.1 = k)).isSome := by
    rw [List.find?_isSome]
    exact ⟨(k, d), h, by simp⟩
  rcases Option.isSome_iff_exists.mp this with ⟨kd, hkd⟩
  simp [hkd]

theorem queryMatches_nil (d : Doc) : queryMatches d [] = true := rfl

theorem queryMatches_id {d : Doc} {i : String} :
    queryMatches d [("_id", Value.vStr i)] = true ↔
    lookupField d "_id" = some (Value.vStr i) := by
  simp [queryMatches]

theorem docIdStr_of_queryMatches_id {d : Doc} {i : String}
    (h : queryMatches d [("_id", Value.vStr i)] = true) : docIdStr d = i := by
  rw [queryMatches_id] at h
  simp [docIdStr, h]

theorem WF_of_cons {k : String} {d : Doc} {rest : DocsMap}
    (h : WF ((k, d) :: rest)) : WF rest := by
  obtain ⟨hnd, hid⟩ := h
  refine ⟨?_, fun kd hm => hid kd (List.mem_cons_of_mem _ hm)⟩
  simpa using (List.nodup_cons.mp (by simpa using hnd)).2

theorem lookupDoc_eq_findByQuery {docs : DocsMap} (h : WF docs) (i : String) :
    lookupDoc docs i =
    DocumentOperations.findByQuery docs [("_id", Value.vStr i)] := by
  induction docs with
  | nil => rfl
  | cons kd rest ih =>
      obtain ⟨k, d⟩ := kd
      have hdk : lookupField d "_id" = some (Value.vStr k) :=
        h.2 (k, d) (List.mem_cons_self _ _)
      by_cases hk : k = i
      · subst hk
        have hq : queryMatches d [("_id", Value.vStr k)] = true :=
          queryMatches_id.mpr hdk
        simp [lookupDoc, DocumentOperations.findByQuery,
              DocumentOperations.findAllDocuments, List.find?_cons_of_pos, hq]
      · have hq : queryMatches d [("_id", Value.vStr i)] = false := by
          rw [Bool.eq_false_iff]
          intro hc
          exact hk (by
            have := queryMatches_id.mp hc
            rw [hdk] at this
            injection this with h2
            injection h2)
        have ihr := ih (WF_of_cons h)
        unfold lookupDoc DocumentOperations.findByQuery
          DocumentOperations.findAllDocuments at ihr ⊢
        rw [List.map_cons, List.find?_cons_of_neg _ (by simpa using hk),
            List.find?_cons_of_neg _ (by simp [hq])]
        exact ihr

theorem findByQuery_eq_none {docs : DocsMap} {f : Filter}
    (h : ∀ d ∈ DocumentOperations.findAllDocuments docs, queryMatches d f = false) :
    DocumentOperations.findByQuery docs f = none := by
  unfold DocumentOperations.findByQuery
  exact List.find?_eq_none.mpr (fun d hd => by simp [h d hd])

theorem findByQuery_some_matches {docs : DocsMap} {f : Filter} {md : Doc}
    (h : DocumentOperations.findByQuery docs f = some md) :
    queryMatches md f = true := by
  unfold DocumentOperations.findByQuery at h
  simpa using List.find?_some h

theorem findByQuery_id_docIdStr {docs : DocsMap} {i : String} {md : Doc}
    (h : DocumentOperations.findByQuery docs [("_id", Value.vStr i)] = some md) :
    docIdStr md = i :=
  docIdStr_of_queryMatches_id (findByQuery_some_matches h)

theorem deleteDocument_of_none {docs : DocsMap} {i : String}
    (h : lookupDoc docs i = none) :
    DocumentOperations.deleteDocument docs i = (0, docs) := by
  simp [DocumentOperations.deleteDocument, h]

theorem filter_ne_all {docs : DocsMap} {i : String}
    (h : ∀ kd ∈ docs, kd.1 ≠ i) :
    docs.filter (fun kd => kd.1 ≠ i) = docs := by
  induction docs with
  | nil => rfl
  | cons kd rest ih =>
      rw [List.filter_cons, if_pos (by simp [h kd (List.mem_cons_self _ _)]),
          ih (fun x hx => h x (List.mem_cons_of_mem _ hx))]

theorem filter_ne_of_not_mem {docs : DocsMap} {i : String}
    (h : i ∉ docs.map Prod.fst) :
    docs.filter (fun kd => kd.1 ≠ i) = docs :=
  filter_ne_all (fun kd hm he => h (he ▸ List.mem_map_of_mem Prod.fst hm))

theorem filter_ne_length {docs : DocsMap} {i : String}
    (hnd : (docs.map Prod.fst).Nodup) (h : (lookupDoc docs i).isSome) :
    (docs.filter (fun kd => kd.1 ≠ i)).length + 1 = docs.length := by
  induction docs with
  | nil => simp [lookupDoc] at h
  | cons kd rest ih =>
      obtain ⟨k, d⟩ := kd
      rw [List.map_cons, List.nodup_cons] at hnd
      by_cases hk : k = i
      · subst hk
        rw [List.filter_cons, if_neg (by simp), filter_ne_of_not_mem hnd.1]
        simp
      · have hrest : (lookupDoc rest i).isSome := by
          unfold lookupDoc at h ⊢
          rw [List.find?_cons_of_neg _ (by simpa using hk)] at h
          exact h
        rw [List.filter_cons, if_pos (by simp [hk])]
        have := ih hnd.2 hrest
        simp only [List.length_cons]
        omega

theorem mapSet_map_fst (docs : DocsMap) (id : String) (d : Doc) :
    (mapSet docs id d).map Prod.fst = docs.map Prod.fst := by
  induction docs with
  | nil => rfl
  | cons kd rest ih =>
      by_cases h : kd.1 = id <;> simp [mapSet, h] at ih ⊢ <;> exact ih

theorem mapSet_length (docs : DocsMap) (id : String) (d : Doc) :
    (mapSet docs id d).length = docs.length :=
  List.length_map _ _

theorem deleteDocument_of_some {docs : DocsMap} {i : String}
    (h : (lookupDoc docs i).isSome) :
    DocumentOperations.deleteDocument docs i =
      (1, docs.filter (fun kd => kd.1 ≠ i)) := by
  unfold DocumentOperations.deleteDocument
  rw [if_pos h]

theorem deleteOne_ok_facts {s : CollState} {f : Filter} {r : DeleteResult}
    {s2 : CollState} (hl : s.loaded = true) (h : WF s.documents)
    (hrun : deleteOne s f = (Except.ok r, s2)) :
    validateFilter f = Except.ok () ∧
    r.acknowledged = true ∧ s2.loaded = true ∧
    ((r.deletedCount = 0 ∧ s2 = s ∧
        (∀ j, f = [("_id", Value.vStr j)] → lookupDoc s.documents j = none)) ∨
     (r.deletedCount = 1 ∧ ∃ i,
        (lookupDoc s.documents i).isSome ∧
        s2.documents = s.documents.filter (fun kd => kd.1 ≠ i) ∧
        (∀ j, f = [("_id", Value.vStr j)] → i = j) ∧
        s2.dirty = true)) := by
  unfold deleteOne at hrun
  rw [ensureLoaded_of_loaded hl] at hrun
  simp only [] at hrun
  split at hrun
  · simp at hrun
  next hv =>
    refine ⟨hv, ?_⟩
    split at hrun
    · -- empty filter
      split at hrun
      · -- no documents
        have hr := congrArg Prod.fst hrun
        have hs := congrArg Prod.snd hrun
        simp only at hr hs
        injection hr with hr2
        exact ⟨by rw [← hr2], by rw [← hs, hl],
               Or.inl ⟨by rw [← hr2], hs.symm, fun j hj => List.noConfusion hj⟩⟩
      next d0 t heq =>
        -- first document exists
        have hmem : d0 ∈ DocumentOperations.findAllDocuments s.documents := by
          rw [heq]; exact List.mem_cons_self _ _
        unfold DocumentOperations.findAllDocuments at hmem
        rcases List.mem_map.mp hmem with ⟨⟨k0, dd⟩, hkd, he⟩
        have hid : docIdStr d0 = k0 := by
          rw [← he]
          have := h.2 (k0, dd) hkd
          unfold docIdStr
          rw [this]
        have hsome : (lookupDoc s.documents k0).isSome :=
          lookupDoc_isSome_of_mem hkd
        rw [hid, deleteDocument_of_some hsome] at hrun
        simp only [Nat.lt_irrefl, gt_iff_lt, Nat.zero_lt_one, if_true] at hrun
        have hr := congrArg Prod.fst hrun
        have hs := congrArg Prod.snd hrun
        simp only at hr hs
        injection hr with hr2
        have hload2 : s2.loaded = true := by
          rw [← hs, markDirty_loaded, updateMetadata_loaded]
        refine ⟨by rw [← hr2], hload2, Or.inr ⟨by rw [← hr2], k0, hsome, ?_, ?_, ?_⟩⟩
        · rw [← hs, markDirty_documents, updateMetadata_documents (by rw [hl])]
        · intro j hj
          cases hj
        · rw [← hs, markDirty_dirty]
    · -- id fast path
      next idv =>
        by_cases hsome : (lookupDoc s.documents idv).isSome
        · rw [deleteDocument_of_some hsome] at hrun
          simp only [Nat.zero_lt_one, gt_iff_lt, if_true] at hrun
          have hr := congrArg Prod.fst hrun
          have hs := congrArg Prod.snd hrun
          simp only at hr hs
          injection hr with hr2
          have hload2 : s2.loaded = true := by
            rw [← hs, markDirty_loaded, updateMetadata_loaded]
          refine ⟨by rw [← hr2], hload2, Or.inr ⟨by rw [← hr2], idv, hsome, ?_, ?_, ?_⟩⟩
          · rw [← hs, markDirty_documents, updateMetadata_documents (by rw [hl])]
          · intro j hj
            injection hj with hj1 hj2
            injection hj1 with hk hv2
            injection hv2
          · rw [← hs, markDirty_dirty]
        · have hnone : lookupDoc s.documents idv = none :=
            Option.not_isSome_iff_eq_none.mp hsome
          rw [deleteDocument_of_none hnone] at hrun
          simp only [Nat.lt_irrefl, gt_iff_lt, if_false] at hrun
          have hr := congrArg Prod.fst hrun
          have hs := congrArg Prod.snd hrun
          simp only at hr hs
          injection hr with hr2
          have hs2 : s2 = s := by rw [← hs]
          refine ⟨by rw [← hr2], by rw [hs2, hl],
                  Or.inl ⟨by rw [← hr2], hs2, ?_⟩⟩
          intro j hj
          injection hj with hj1 _
          injection hj1 with _ hv2
          injection hv2 with hv3
          rw [← hv3]
          exact hnone
    · -- query engine path
      split at hrun
      · -- no match
        next heq =>
        have hr := congrArg Prod.fst hrun
        have hs := congrArg Prod.snd hrun
        simp only at hr hs
        injection hr with hr2
        refine ⟨by rw [← hr2], by rw [← hs, hl],
                Or.inl ⟨by rw [← hr2], hs.symm, ?_⟩⟩
        intro j hj
        rw [hj] at heq
        rw [lookupDoc_eq_findByQuery h]
        exact heq
      next md heq =>
        have hmem : md ∈ DocumentOperations.findAllDocuments s.documents := by
          unfold DocumentOperations.findByQuery at heq
          exact List.mem_of_find?_eq_some heq
        unfold DocumentOperations.findAllDocuments at hmem
        rcases List.mem_map.mp hmem with ⟨⟨k0, dd⟩, hkd, he⟩
        have hid : docIdStr md = k0 := by
          rw [← he]
          have := h.2 (k0, dd) hkd
          unfold docIdStr
          rw [this]
        have hsome : (lookupDoc s.documents k0).isSome :=
          lookupDoc_isSome_of_mem hkd
        rw [hid, deleteDocument_of_some hsome] at hrun
        simp only [Nat.zero_lt_one, gt_iff_lt, if_true] at hrun
        have hr := congrArg Prod.fst hrun
        have hs := congrArg Prod.snd hrun
        simp only at hr hs
        injection hr with hr2
        have hload2 : s2.loaded = true := by
          rw [← hs, markDirty_loaded, updateMetadata_loaded]
        refine ⟨by rw [← hr2], hload2, Or.inr ⟨by rw [← hr2], k0, hsome, ?_, ?_, ?_⟩⟩
        · rw [← hs, markDirty_documents, updateMetadata_documents (by rw [hl])]
        · intro j hj
          rw [hj] at heq
          rw [← hid]
          exact findByQuery_id_docIdStr heq
        · rw [← hs, markDirty_dirty]

theorem countByQuery_zero_of_findByQuery_none {docs : DocsMap} {f : Filter}
    (h : DocumentOperations.findByQuery docs f = none) :
    DocumentOperations.countByQuery docs f = 0 := by
  apply countByQuery_eq_zero
  intro d hd
  unfold DocumentOperations.findByQuery at h
  have := List.find?_eq_none.mp h d hd
  simpa using this

theorem countByQuery_zero_after_delete {docs : DocsMap} {j : String}
    (h : WF docs) :
    DocumentOperations.countByQuery (docs.filter (fun kd => kd.1 ≠ j))
      [("_id", Value.vStr j)] = 0 := by
  apply countByQuery_eq_zero
  intro d hd
  unfold DocumentOperations.findAllDocuments at hd
  rcases List.mem_map.mp hd with ⟨⟨k, dd⟩, hkd, he⟩
  have hmf := List.mem_filter.mp hkd
  have hne : k ≠ j := by simpa using hmf.2
  have hident := h.2 (k, dd) hmf.1
  rw [Bool.eq_false_iff]
  intro hc
  have hc2 := queryMatches_id.mp hc
  rw [← he] at hc2
  simp only at hc2
  rw [hident] at hc2
  injection hc2 with h2
  injection h2 with h3
  exact hne h3

theorem countDocuments_ok {s : CollState} {f : Filter} (hl : s.loaded = true)
    (hv : validateFilter f = Except.ok ()) (hne : f ≠ []) :
    countDocuments s f =
      (Except.ok (DocumentOperations.countByQuery s.documents f), s) := by
  unfold countDocuments
  rw [ensureLoaded_of_loaded hl]
  simp only [hv]

theorem udwo_ok_facts {docs : DocsMap} {i : String} {u : Update} {m : Nat}
    {docs2 : DocsMap}
    (h : DocumentOperations.updateDocumentWithOperators docs i u =
         Except.ok (m, docs2)) :
    m ≤ 1 ∧ docs2.length = docs.length := by
  unfold DocumentOperations.updateDocumentWithOperators at h
  split at h
  · injection h with h2
    injection h2 with hm hd
    subst hd
    exact ⟨by omega, rfl⟩
  · split at h
    · cases h
    · split at h <;>
        · injection h with h2
          injection h2 with hm hd
          subst hd
          simp [mapSet_length]
          omega

theorem replaceDocument_ok_facts {docs : DocsMap} {i : String} {doc : Doc}
    {m : Nat} {docs2 : DocsMap}
    (h : DocumentOperations.replaceDocument docs i doc = Except.ok (m, docs2)) :
    m ≤ 1 ∧ docs2.length = docs.length := by
  unfold DocumentOperations.replaceDocument at h
  split at h
  · injection h with h2
    injection h2 with hm hd
    subst hd
    exact ⟨by omega, rfl⟩
  · split at h
    · cases h
    · split at h
      · split at h
        · cases h
        · split at h <;>
            · injection h with h2
              injection h2 with hm hd
              subst hd
              simp [mapSet_length]
              omega
      · cases h
      · split at h <;>
          · injection h with h2
            injection h2 with hm hd
            subst hd
            simp [mapSet_length]
            omega

theorem applyLoop_ok_length {u : Update} {matching : List Doc} :
    ∀ {docs docs2 : DocsMap} {acc n : Nat},
      applyLoop docs matching u acc = (Except.ok n, docs2) →
      docs2.length = docs.length := by
  induction matching with
  | nil =>
      intro docs docs2 acc n h
      unfold applyLoop at h
      injection h with h1 h2
      rw [h2]
  | cons d rest ih =>
      intro docs docs2 acc n h
      unfold applyLoop at h
      rcases hu : DocumentOperations.updateDocumentWithOperators docs (docIdStr d) u
        with e | ⟨m, docsm⟩ <;> rw [hu] at h
      · cases h
      · have h1 := ih h
        have h2 := (udwo_ok_facts hu).2
        omega

theorem applyOne_no_invalidArgument {d : Doc} {op path : String} {v : Value}
    {m : String} :
    UpdateEngine.applyOne d op path v ≠ Except.error (DBError.invalidArgument m) := by
  unfold UpdateEngine.applyOne
  intro h
  split at h
  · cases h
  · split at h
    · cases h
    · split at h
      · cases h
      · split at h
        · split at h <;> cases h
        · cases h

theorem except_bind_error {ε α β : Type} (e : ε) (f : α → Except ε β) :
    (Except.error e >>= f) = Except.error e := rfl

theorem except_bind_ok {ε α β : Type} (a : α) (f : α → Except ε β) :
    (Except.ok a >>= f) = f a := rfl

theorem foldl_applyOne_no_invalidArgument (op : String)
    (entries : List (String × Value)) :
    ∀ (d : Doc) (m : String),
      entries.foldlM (fun acc pv => UpdateEngine.applyOne acc op pv.1 pv.2) d ≠
      Except.error (DBError.invalidArgument m) := by
  induction entries with
  | nil => intro d m h; cases h
  | cons pv rest ih =>
      intro d m h
      rw [List.foldlM_cons] at h
      rcases ha : UpdateEngine.applyOne d op pv.1 pv.2 with e | d2 <;> rw [ha] at h
      · rw [except_bind_error] at h
        injection h with he
        rw [he] at ha
        exact applyOne_no_invalidArgument ha
      · rw [except_bind_ok] at h
        exact ih d2 m h

theorem applyOp_no_invalidArgument {d : Doc} {op : String} {arg : Value}
    {m : String} :
    UpdateEngine.applyOp d op arg ≠ Except.error (DBError.invalidArgument m) := by
  unfold UpdateEngine.applyOp
  cases arg <;> intro h <;> try cases h
  exact foldl_applyOne_no_invalidArgument _ _ _ _ h

theorem applyOperators_no_invalidArgument {u : Update} :
    ∀ {d : Doc} {m : String},
      UpdateEngine.applyOperators d u ≠ Except.error (DBError.invalidArgument m) := by
  unfold UpdateEngine.applyOperators
  induction u with
  | nil => intro d m h; cases h
  | cons kv rest ih =>
      intro d m h
      rw [List.foldlM_cons] at h
      rcases ha : UpdateEngine.applyOp d kv.1 kv.2 with e | d2 <;> rw [ha] at h
      · rw [except_bind_error] at h
        injection h with he
        rw [he] at ha
        exact applyOp_no_invalidArgument ha
      · rw [except_bind_ok] at h
        exact ih h

theorem udwo_no_invalidArgument {docs : DocsMap} {i : String} {u : Update}
    {m : String} :
    DocumentOperations.updateDocumentWithOperators docs i u ≠
    Except.error (DBError.invalidArgument m) := by
  unfold DocumentOperations.updateDocumentWithOperators
  intro h
  split at h
  · cases h
  · split at h
    · injection h with h2
      subst h2
      exact applyOperators_no_invalidArgument (by assumption)
    · split at h <;> cases h

theorem applyLoop_no_invalidArgument {u : Update} {matching : List Doc} :
    ∀ {docs : DocsMap} {acc : Nat} {m : String},
      (applyLoop docs matching u acc).1 ≠
      Except.error (DBError.invalidArgument m) := by
  induction matching with
  | nil => intro docs acc m h; cases h
  | cons d rest ih =>
      intro docs acc m h
      unfold applyLoop at h
      rcases hu : DocumentOperations.updateDocumentWithOperators docs (docIdStr d) u
        with e | ⟨k, docsm⟩ <;> rw [hu] at h <;> simp only at h
      · injection h with he
        rw [he] at hu
        exact udwo_no_invalidArgument hu
      · exact ih h

theorem markDirty_masterIndex (s : CollState) :
    (markDirty s).masterIndex = s.masterIndex := rfl

theorem markDirty_collectionMetadata (s : CollState) :
    (markDirty s).collectionMetadata = s.collectionMetadata := rfl

theorem ensureLoaded_meta_isSome {s : CollState}
    (hm : s.loaded = true → s.collectionMetadata ≠ none) :
    ∃ m, (ensureLoaded s).collectionMetadata = some m := by
  unfold ensureLoaded
  by_cases hl : s.loaded = true
  · rw [if_pos hl]
    exact Option.ne_none_iff_exists'.mp (hm hl)
  · rw [if_neg hl]
    exact ⟨s.blob.metadata, rfl⟩

theorem updateMetadata_publish {s : CollState} {m : CollMeta}
    (hl : s.loaded = true) (hm : s.collectionMetadata = some m)
    (c : Option Nat) :
    (updateMetadata s c).masterIndex = (updateMetadata s c).collectionMetadata ∧
    (updateMetadata s c).masterIndex ≠ none := by
  rw [updateMetadata_eq hl hm c]
  exact ⟨rfl, by simp⟩

theorem insertOne_frame (s : CollState) (doc : Doc) :
    (insertOne s doc).2.fileWrites = s.fileWrites ∧
    (insertOne s doc).2.lockEvents = s.lockEvents := by
  unfold insertOne
  constructor <;>
    · simp only []
      repeat' split
      all_goals
        simp [ensureLoaded_fileWrites, ensureLoaded_lockEvents,
          updateMetadata_fileWrites, updateMetadata_lockEvents,
          markDirty_fileWrites, markDirty_lockEvents]

theorem updateOneWithOperators_frame (s : CollState) (f : Filter) (u : Update) :
    (updateOneWithOperators s f u).2.fileWrites = s.fileWrites ∧
    (updateOneWithOperators s f u).2.lockEvents = s.lockEvents := by
  unfold updateOneWithOperators
  constructor <;>
    · simp only []
      repeat' split
      all_goals
        simp [updateMetadata_fileWrites, updateMetadata_lockEvents,
          markDirty_fileWrites, markDirty_lockEvents]

theorem updateOneWithReplacement_frame (s : CollState) (f : Filter)
    (u : Update) :
    (updateOneWithReplacement s f u).2.fileWrites = s.fileWrites ∧
    (updateOneWithReplacement s f u).2.lockEvents = s.lockEvents := by
  unfold updateOneWithReplacement
  constructor <;>
    · simp only []
      repeat' split
      all_goals
        simp [updateMetadata_fileWrites, updateMetadata_lockEvents,
          markDirty_fileWrites, markDirty_lockEvents]

theorem updateOne_frame (s : CollState) (foi : FilterOrId) (u : Update) :
    (updateOne s foi u).2.fileWrites = s.fileWrites ∧
    (updateOne s foi u).2.lockEvents = s.lockEvents := by
  unfold updateOne
  constructor <;>
    · simp only []
      repeat' split
      all_goals
        first
        | (rw [(updateOneWithOperators_frame _ _ _).1, ensureLoaded_fileWrites])
        | (rw [(updateOneWithOperators_frame _ _ _).2, ensureLoaded_lockEvents])
        | (rw [(updateOneWithReplacement_frame _ _ _).1, ensureLoaded_fileWrites])
        | (rw [(updateOneWithReplacement_frame _ _ _).2, ensureLoaded_lockEvents])
        | simp [ensureLoaded_fileWrites, ensureLoaded_lockEvents]

theorem updateMany_frame (s : CollState) (f : Filter) (u : Update) :
    (updateMany s f u).2.fileWrites = s.fileWrites ∧
    (updateMany s f u).2.lockEvents = s.lockEvents := by
  unfold updateMany
  constructor <;>
    · simp only []
      repeat' split
      all_goals
        simp [ensureLoaded_fileWrites, ensureLoaded_lockEvents,
          updateMetadata_fileWrites, updateMetadata_lockEvents,
          markDirty_fileWrites, markDirty_lockEvents]

theorem replaceOne_frame (s : CollState) (foi : FilterOrId) (doc : Doc) :
    (replaceOne s foi doc).2.fileWrites = s.fileWrites ∧
    (replaceOne s foi doc).2.lockEvents = s.lockEvents := by
  unfold replaceOne
  constructor <;>
    · simp only []
      repeat' split
      all_goals
        simp [ensureLoaded_fileWrites, ensureLoaded_lockEvents,
          updateMetadata_fileWrites, updateMetadata_lockEvents,
          markDirty_fileWrites, markDirty_lockEvents]

theorem deleteOne_frame (s : CollState) (f : Filter) :
    (deleteOne s f).2.fileWrites = s.fileWrites ∧
    (deleteOne s f).2.lockEvents = s.lockEvents := by
  unfold deleteOne
  constructor <;>
    · simp only []
      repeat' split
      all_goals
        simp [ensureLoaded_fileWrites, ensureLoaded_lockEvents,
          updateMetadata_fileWrites, updateMetadata_lockEvents,
          markDirty_fileWrites, markDirty_lockEvents]

theorem markDirty_updateMetadata_publish {s : CollState} {m : CollMeta}
    (hl : s.loaded = true) (hm : s.collectionMetadata = some m)
    (c : Option Nat) :
    (markDirty (updateMetadata s c)).dirty = true ∧
    (markDirty (updateMetadata s c)).masterIndex =
      (markDirty (updateMetadata s c)).collectionMetadata ∧
    (markDirty (updateMetadata s c)).masterIndex ≠ none := by
  have hp := updateMetadata_publish hl hm c
  exact ⟨markDirty_dirty _,
         by rw [markDirty_masterIndex, markDirty_collectionMetadata]; exact hp.1,
         by rw [markDirty_masterIndex]; exact hp.2⟩

theorem insertOne_publishes {s : CollState} {doc : Doc} {r : InsertResult}
    {s2 : CollState} (hm : s.loaded = true → s.collectionMetadata ≠ none)
    (hrun : insertOne s doc = (Except.ok r, s2)) :
    s2.dirty = true ∧ s2.masterIndex = s2.collectionMetadata ∧
    s2.masterIndex ≠ none := by
  obtain ⟨m, hms⟩ := ensureLoaded_meta_isSome hm
  unfold insertOne at hrun
  simp only [] at hrun
  split at hrun
  · simp at hrun
  · rename_i inserted docs2 nid heq
    have hs := congrArg Prod.snd hrun
    simp only at hs
    rw [← hs]
    exact markDirty_updateMetadata_publish (by exact ensureLoaded_loaded s)
      (by exact hms) _

theorem udwo_of_none {docs : DocsMap} {i : String} {u : Update}
    (h : lookupDoc docs i = none) :
    DocumentOperations.updateDocumentWithOperators docs i u =
      Except.ok (0, docs) := by
  unfold DocumentOperations.updateDocumentWithOperators
  rw [h]

theorem replaceDocument_of_none {docs : DocsMap} {i : String} {doc : Doc}
    (h : lookupDoc docs i = none) :
    DocumentOperations.replaceDocument docs i doc = Except.ok (0, docs) := by
  unfold DocumentOperations.replaceDocument
  rw [h]

theorem findMultipleByQuery_eq_nil {docs : DocsMap} {f : Filter}
    (h : ∀ d ∈ DocumentOperations.findAllDocuments docs, queryMatches d f = false) :
    DocumentOperations.findMultipleByQuery docs f = [] := by
  unfold DocumentOperations.findMultipleByQuery
  rw [List.filter_eq_nil_iff]
  exact fun d hd => by simp [h d hd]

theorem updateOneWithOperators_no_match {s : CollState} {f : Filter}
    {u : Update} {r : UpdateResult} {s2 : CollState} (h : WF s.documents)
    (hrun : updateOneWithOperators s f u = (Except.ok r, s2))
    (hnm : ∀ d ∈ DocumentOperations.findAllDocuments s.documents,
        queryMatches d f = false) :
    r = { matchedCount := 0, modifiedCount := 0, acknowledged := true } ∧
    s2 = s := by
  unfold updateOneWithOperators at hrun
  split at hrun
  · next idv =>
    have hnone : lookupDoc s.documents idv = none := by
      rw [lookupDoc_eq_findByQuery h]
      exact findByQuery_eq_none hnm
    rw [udwo_of_none hnone] at hrun
    simp only [gt_iff_lt, Nat.lt_irrefl, if_false] at hrun
    have hr := congrArg Prod.fst hrun
    have hs := congrArg Prod.snd hrun
    simp only at hr hs
    injection hr with hr2
    exact ⟨hr2.symm, hs.symm⟩
  · split at hrun
    · have hr := congrArg Prod.fst hrun
      have hs := congrArg Prod.snd hrun
      simp only at hr hs
      injection hr with hr2
      exact ⟨hr2.symm, hs.symm⟩
    · next md heq =>
      rw [findByQuery_eq_none hnm] at heq
      cases heq

theorem updateOneWithReplacement_no_match {s : CollState} {f : Filter}
    {u : Update} {r : UpdateResult} {s2 : CollState} (h : WF s.documents)
    (hrun : updateOneWithReplacement s f u = (Except.ok r, s2))
    (hnm : ∀ d ∈ DocumentOperations.findAllDocuments s.documents,
        queryMatches d f = false) :
    r = { matchedCount := 0, modifiedCount := 0, acknowledged := true } ∧
    s2 = s := by
  unfold updateOneWithReplacement at hrun
  split at hrun
  · next idv =>
    have hnone : lookupDoc s.documents idv = none := by
      rw [lookupDoc_eq_findByQuery h]
      exact findByQuery_eq_none hnm
    have hupd : DocumentOperations.updateDocument s.documents idv u =
        Except.ok (0, s.documents) := replaceDocument_of_none hnone
    rw [hupd] at hrun
    simp only [gt_iff_lt, Nat.lt_irrefl, if_false] at hrun
    have hr := congrArg Prod.fst hrun
    have hs := congrArg Prod.snd hrun
    simp only at hr hs
    injection hr with hr2
    exact ⟨hr2.symm, hs.symm⟩
  · split at hrun
    · have hr := congrArg Prod.fst hrun
      have hs := congrArg Prod.snd hrun
      simp only at hr hs
      injection hr with hr2
      exact ⟨hr2.symm, hs.symm⟩
    · next md heq =>
      rw [findByQuery_eq_none hnm] at heq
      cases heq

/-- Claim C3 (counterexample): the Collection class provides no deleteMany —
it is absent from the public method surface transcribed from Collection.js. -/
theorem C3_counterexample : "deleteMany" ∉ Collection.publicMethods := by
  decide

/-- Claim C3 (amended): the Collection public surface provides no deleteMany;
for the deletion operation it does provide, a successful deleteOne(filter)
on a loaded well-formed collection removes at most one document, the total
document count decreases by exactly the reported deletedCount, and for the
ID-filter form countDocuments(filter) immediately afterwards returns 0. -/
theorem C3_deleteOne_decrement (s : CollState) (f : Filter) (r : DeleteResult)
    (s2 : CollState) (hl : s.loaded = true) (h : WF s.documents)
    (hrun : deleteOne s f = (Except.ok r, s2)) :
    r.deletedCount ≤ 1 ∧
    s2.documents.length + r.deletedCount = s.documents.length ∧
    (∀ i, f = [("_id", Value.vStr i)] →
      (countDocuments s2 f).1 = Except.ok 0) := by
  obtain ⟨hv, hack, hload2, hcases⟩ := deleteOne_ok_facts hl h hrun
  rcases hcases with ⟨hz, hs2, hid0⟩ | ⟨ho, i, hsome, hdocs2, hij, hdirty⟩
  · refine ⟨by omega, by simp [hz, hs2], ?_⟩
    intro j hj
    subst hj
    rw [countDocuments_ok hload2 hv (by simp)]
    dsimp only
    rw [hs2]
    rw [countByQuery_zero_of_findByQuery_none
          (by rw [← lookupDoc_eq_findByQuery h]; exact hid0 j rfl)]
  · refine ⟨by omega, ?_, ?_⟩
    · rw [hdocs2, ho]
      exact filter_ne_length h.1 hsome
    · intro j hj
      have hi := hij j hj
      subst hj
      rw [countDocuments_ok hload2 hv (by simp)]
      dsimp only
      rw [hdocs2, hi]
      rw [countByQuery_zero_after_delete h]

/-- Claim C3 (witness): the amended theorem applied to the one-document
fixture with its ID filter. -/
theorem C3_witness :
    stateW.loaded = true ∧ WF stateW.documents ∧
    (1 : Nat) ≤ 1 ∧
    (deleteOne stateW [("_id", Value.vStr "a")]).2.documents.length + 1 =
      stateW.documents.length :=
  ⟨rfl, by decide,
   (C3_deleteOne_decrement stateW [("_id", Value.vStr "a")]
      { deletedCount := 1, acknowledged := true }
      (deleteOne stateW [("_id", Value.vStr "a")]).2
      rfl (by decide) (by decide)).1,
   (C3_deleteOne_decrement stateW [("_id", Value.vStr "a")]
      { deletedCount := 1, acknowledged := true }
      (deleteOne stateW [("_id", Value.vStr "a")]).2
      rfl (by decide) (by decide)).2.1⟩

/-- Claim C9: deleteOne({}) on a loaded well-formed collection deletes
exactly the first document of the enumeration and reports deletedCount 1
(the empty filter is accepted, not rejected); on an empty collection it
returns deletedCount 0 and leaves the state unchanged. -/
theorem C9_deleteOne_empty_filter (s : CollState) (hl : s.loaded = true)
    (h : WF s.documents) :
    (s.documents = [] →
      deleteOne s [] =
        (Except.ok { deletedCount := 0, acknowledged := true }, s)) ∧
    (∀ k0 d0 rest, s.documents = (k0, d0) :: rest →
      (deleteOne s []).1 =
        Except.ok { deletedCount := 1, acknowledged := true } ∧
      (deleteOne s []).2.documents = rest ∧
      (deleteOne s []).2.dirty = true) := by
  have hv0 : validateFilter ([] : Filter) = Except.ok () := rfl
  constructor
  · intro hdocs
    have hfa : DocumentOperations.findAllDocuments s.documents = [] := by
      rw [hdocs]; rfl
    simp only [deleteOne, ensureLoaded_of_loaded hl, hv0, hfa]
  · intro k0 d0 rest hdocs
    have hnd := h.1
    rw [hdocs, List.map_cons, List.nodup_cons] at hnd
    have hfa : DocumentOperations.findAllDocuments s.documents =
        d0 :: List.map Prod.snd rest := by
      rw [hdocs]; rfl
    have hid : docIdStr d0 = k0 := by
      have := h.2 (k0, d0) (by rw [hdocs]; exact List.mem_cons_self _ _)
      unfold docIdStr
      rw [this]
    have hsome : (lookupDoc s.documents k0).isSome :=
      lookupDoc_isSome_of_mem (by rw [hdocs]; exact List.mem_cons_self _ _)
    have hfilt : s.documents.filter (fun kd => kd.1 ≠ k0) = rest := by
      rw [hdocs, List.filter_cons, if_neg (by simp)]
      exact filter_ne_of_not_mem hnd.1
    have hdel : DocumentOperations.deleteDocument s.documents (docIdStr d0) =
        (1, rest) := by
      rw [hid, deleteDocument_of_some hsome, hfilt]
    have hrunq : deleteOne s [] =
        (Except.ok { deletedCount := 1, acknowledged := true },
         markDirty (updateMetadata { s with documents := rest }
           (some rest.length))) := by
      simp only [deleteOne, ensureLoaded_of_loaded hl, hv0, hfa, hdel,
                 gt_iff_lt, Nat.zero_lt_one, if_true]
    rw [hrunq]
    refine ⟨rfl, ?_, rfl⟩
    rw [markDirty_documents,
        updateMetadata_documents (s := { s with documents := rest }) hl]

/-- Claim C9 (witness): the theorem applied to the one-document fixture. -/
theorem C9_witness :
    stateW.loaded = true ∧ WF stateW.documents ∧
    ((deleteOne stateW []).1 =
       Except.ok { deletedCount := 1, acknowledged := true } ∧
     (deleteOne stateW []).2.documents = [] ∧
     (deleteOne stateW []).2.dirty = true) :=
  ⟨rfl, by decide,
   (C9_deleteOne_empty_filter stateW rfl (by decide)).2 "a" docA [] rfl⟩

theorem updateOneWithOperators_error_state {s : CollState} {f : Filter}
    {u : Update} {e : DBError} {s2 : CollState}
    (hrun : updateOneWithOperators s f u = (Except.error e, s2)) : s2 = s := by
  unfold updateOneWithOperators at hrun
  split at hrun
  · split at hrun
    · exact (congrArg Prod.snd hrun).symm
    · simp at hrun
  · split at hrun
    · simp at hrun
    · split at hrun
      · exact (congrArg Prod.snd hrun).symm
      · simp at hrun

theorem updateOneWithReplacement_error_state {s : CollState} {f : Filter}
    {u : Update} {e : DBError} {s2 : CollState}
    (hrun : updateOneWithReplacement s f u = (Except.error e, s2)) : s2 = s := by
  unfold updateOneWithReplacement at hrun
  split at hrun
  · split at hrun
    · exact (congrArg Prod.snd hrun).symm
    · simp at hrun
  · split at hrun
    · simp at hrun
    · split at hrun
      · exact (congrArg Prod.snd hrun).symm
      · simp at hrun

/-- Claim C1 (counterexample): a successful insertOne returns with the
FileService write counter and the LockService acquisition counter
unchanged — the claimed lock acquisition and blob write before returning to
the caller do not happen (insertOne only marks the collection dirty; the
write happens later in save()). -/
theorem C1_counterexample :
    (insertOne stateE [("_id", Value.vStr "b")]).1 =
      Except.ok { insertedId := "b", acknowledged := true } ∧
    (insertOne stateE [("_id", Value.vStr "b")]).2.fileWrites =
      stateE.fileWrites ∧
    (insertOne stateE [("_id", Value.vStr "b")]).2.lockEvents =
      stateE.lockEvents := by
  decide

/-- Claim C1 (amended): no public mutation (insertOne, updateOne, updateMany,
replaceOne, deleteOne) acquires a LockService lock or writes the collection
blob through FileService before returning — both counters are unchanged on
every path; a successful insertOne does publish the new metadata to the
MasterIndex and marks the collection dirty, the blob write being deferred
to save(). -/
theorem C1_mutation_effects (s : CollState)
    (hm : s.loaded = true → s.collectionMetadata ≠ none) :
    (∀ doc, (insertOne s doc).2.fileWrites = s.fileWrites ∧
            (insertOne s doc).2.lockEvents = s.lockEvents) ∧
    (∀ foi u, (updateOne s foi u).2.fileWrites = s.fileWrites ∧
              (updateOne s foi u).2.lockEvents = s.lockEvents) ∧
    (∀ f u, (updateMany s f u).2.fileWrites = s.fileWrites ∧
            (updateMany s f u).2.lockEvents = s.lockEvents) ∧
    (∀ foi doc, (replaceOne s foi doc).2.fileWrites = s.fileWrites ∧
                (replaceOne s foi doc).2.lockEvents = s.lockEvents) ∧
    (∀ f, (deleteOne s f).2.fileWrites = s.fileWrites ∧
          (deleteOne s f).2.lockEvents = s.lockEvents) ∧
    (∀ doc r s2, insertOne s doc = (Except.ok r, s2) →
      s2.dirty = true ∧ s2.masterIndex = s2.collectionMetadata ∧
      s2.masterIndex ≠ none) :=
  ⟨fun doc => insertOne_frame s doc,
   fun foi u => updateOne_frame s foi u,
   fun f u => updateMany_frame s f u,
   fun foi doc => replaceOne_frame s foi doc,
   fun f => deleteOne_frame s f,
   fun _ _ _ hrun => insertOne_publishes hm hrun⟩

/-- Claim C1 (witness): the amended theorem applied to the one-document
fixture. -/
theorem C1_witness :
    (stateW.loaded = true → stateW.collectionMetadata ≠ none) ∧
    ((insertOne stateW [("_id", Value.vStr "b")]).2.fileWrites =
       stateW.fileWrites ∧
     (insertOne stateW [("_id", Value.vStr "b")]).2.lockEvents =
       stateW.lockEvents) :=
  ⟨by decide,
   (C1_mutation_effects stateW (by decide)).1 [("_id", Value.vStr "b")]⟩

theorem udwo_of_some {docs : DocsMap} {i : String} {u : Update} {d : Doc}
    (hld : lookupDoc docs i = some d) :
    DocumentOperations.updateDocumentWithOperators docs i u =
      (match UpdateEngine.applyOperators d u with
       | Except.error e => Except.error e
       | Except.ok d2 =>
           if d2 = d then Except.ok (0, docs)
           else Except.ok (1, mapSet docs i d2)) := by
  unfold DocumentOperations.updateDocumentWithOperators
  rw [hld]

theorem updateOneWithOperators_id_matched {s : CollState} {i : String}
    {u : Update} {r : UpdateResult} {s2 : CollState}
    (hrun : updateOneWithOperators s [("_id", Value.vStr i)] u =
            (Except.ok r, s2)) :
    r.matchedCount = r.modifiedCount := by
  unfold updateOneWithOperators at hrun
  split at hrun
  · split at hrun
    · simp at hrun
    · rename_i modified docs2 heq2
      have hfacts := udwo_ok_facts heq2
      have hr := congrArg Prod.fst hrun
      simp only at hr
      injection hr with hr2
      rw [← hr2]
      simp only
      split
      · omega
      · omega
  · rename_i hne
    exact absurd rfl (hne i)

theorem updateOneWithReplacement_id_matched {s : CollState} {i : String}
    {u : Update} {r : UpdateResult} {s2 : CollState}
    (hrun : updateOneWithReplacement s [("_id", Value.vStr i)] u =
            (Except.ok r, s2)) :
    r.matchedCount = r.modifiedCount := by
  unfold updateOneWithReplacement at hrun
  split at hrun
  · split at hrun
    · simp at hrun
    · rename_i modified docs2 heq2
      unfold DocumentOperations.updateDocument at heq2
      have hfacts := replaceDocument_ok_facts heq2
      have hr := congrArg Prod.fst hrun
      simp only at hr
      injection hr with hr2
      rw [← hr2]
      simp only
      split
      · omega
      · omega
  · rename_i hne
    exact absurd rfl (hne i)

theorem updateOneWithOperators_query_matched {s : CollState} {f : Filter}
    {u : Update} {r : UpdateResult} {s2 : CollState} {md : Doc}
    (hne : ∀ i, f ≠ [("_id", Value.vStr i)])
    (hfq : DocumentOperations.findByQuery s.documents f = some md)
    (hrun : updateOneWithOperators s f u = (Except.ok r, s2)) :
    r.matchedCount = 1 := by
  unfold updateOneWithOperators at hrun
  split at hrun
  · rename_i idv
    exact absurd rfl (hne idv)
  · split at hrun
    · rename_i heq
      rw [hfq] at heq
      cases heq
    · rename_i md2 heq
      split at hrun
      · simp at hrun
      · rename_i modified docs2 heq2
        have hr := congrArg Prod.fst hrun
        simp only at hr
        injection hr with hr2
        rw [← hr2]

theorem updateOneWithReplacement_query_matched {s : CollState} {f : Filter}
    {u : Update} {r : UpdateResult} {s2 : CollState} {md : Doc}
    (hne : ∀ i, f ≠ [("_id", Value.vStr i)])
    (hfq : DocumentOperations.findByQuery s.documents f = some md)
    (hrun : updateOneWithReplacement s f u = (Except.ok r, s2)) :
    r.matchedCount = 1 := by
  unfold updateOneWithReplacement at hrun
  split at hrun
  · rename_i idv
    exact absurd rfl (hne idv)
  · split at hrun
    · rename_i heq
      rw [hfq] at heq
      cases heq
    · rename_i md2 heq
      split at hrun
      · simp at hrun
      · rename_i modified docs2 heq2
        have hr := congrArg Prod.fst hrun
        simp only at hr
        injection hr with hr2
        rw [← hr2]

theorem updateOneWithOperators_id_modified_iff {s : CollState} {i : String}
    {u : Update} {r : UpdateResult} {s2 : CollState} {d : Doc}
    (hrun : updateOneWithOperators s [("_id", Value.vStr i)] u =
            (Except.ok r, s2))
    (hld : lookupDoc s.documents i = some d) :
    (r.modifiedCount = 0 ↔ UpdateEngine.applyOperators d u = Except.ok d) := by
  unfold updateOneWithOperators at hrun
  split at hrun
  · rename_i idv heq
    have hiv : i = idv := by
      injection heq with h1 _
      injection h1 with _ h2
      injection h2
    subst hiv
    split at hrun
    · simp at hrun
    · rename_i modified docs2 heq2
      have hr := congrArg Prod.fst hrun
      simp only at hr
      injection hr with hr2
      rw [← hr2]
      simp only
      rw [udwo_of_some hld] at heq2
      split at heq2
      · cases heq2
      · rename_i d2 ha
        split at heq2
        · rename_i hd2
          injection heq2 with h3
          injection h3 with hm hd
          subst hd2
          constructor
          · intro _
            exact ha
          · intro _
            omega
        · rename_i hd2
          injection heq2 with h3
          injection h3 with hm hd
          constructor
          · intro hz
            omega
          · intro hok
            rw [hok] at ha
            injection ha with ha2
            exact absurd ha2.symm hd2
  · rename_i hne
    exact absurd rfl (hne i)

theorem markDirty_CountOk {s : CollState} (h : CountOk s) :
    CountOk (markDirty s) := by
  obtain ⟨m, hm, hc⟩ := h
  exact ⟨m, hm, hc⟩

theorem updateMetadata_CountOk_some {s : CollState} {m : CollMeta}
    (hl : s.loaded = true) (hm : s.collectionMetadata = some m) :
    CountOk (updateMetadata s (some s.documents.length)) := by
  rw [updateMetadata_eq hl hm]
  exact ⟨_, rfl, by simp⟩

theorem updateMetadata_CountOk_none {s : CollState} (hl : s.loaded = true)
    (hok : CountOk s) : CountOk (updateMetadata s none) := by
  obtain ⟨m, hm, hc⟩ := hok
  rw [updateMetadata_eq hl hm]
  exact ⟨_, rfl, by simpa using hc⟩

theorem deleteDocument_zero_snd {docs : DocsMap} {i : String}
    (h : ¬ (DocumentOperations.deleteDocument docs i).1 > 0) :
    (DocumentOperations.deleteDocument docs i).2 = docs := by
  by_cases hs : (lookupDoc docs i).isSome
  · rw [deleteDocument_of_some hs] at h
    exact absurd (by omega) h
  · rw [deleteDocument_of_none (Option.not_isSome_iff_eq_none.mp hs)]

theorem updateOneWithOperators_CountOk {s : CollState} {f : Filter}
    {u : Update} {r : UpdateResult} {s2 : CollState} (hl : s.loaded = true)
    (hok : CountOk s)
    (hrun : updateOneWithOperators s f u = (Except.ok r, s2)) : CountOk s2 := by
  unfold updateOneWithOperators at hrun
  split at hrun
  · split at hrun
    · simp at hrun
    · rename_i modified docs2 heq
      have hlen := (udwo_ok_facts heq).2
      have hs := congrArg Prod.snd hrun
      simp only at hs
      rw [← hs]
      have hok2 : CountOk ({ s with documents := docs2 } : CollState) := by
        obtain ⟨m, hm, hc⟩ := hok
        refine ⟨m, hm, ?_⟩
        simp only
        rw [hlen]
        exact hc
      split
      · exact markDirty_CountOk (updateMetadata_CountOk_none (by exact hl) hok2)
      · exact hok2
  · split at hrun
    · have hs := congrArg Prod.snd hrun
      simp only at hs
      rw [← hs]
      exact hok
    · rename_i md heq
      split at hrun
      · simp at hrun
      · rename_i modified docs2 heq2
        have hlen := (udwo_ok_facts heq2).2
        have hs := congrArg Prod.snd hrun
        simp only at hs
        rw [← hs]
        have hok2 : CountOk ({ s with documents := docs2 } : CollState) := by
          obtain ⟨m, hm, hc⟩ := hok
          refine ⟨m, hm, ?_⟩
          simp only
          rw [hlen]
          exact hc
        split
        · exact markDirty_CountOk (updateMetadata_CountOk_none (by exact hl) hok2)
        · exact hok2

theorem updateOneWithReplacement_CountOk {s : CollState} {f : Filter}
    {u : Update} {r : UpdateResult} {s2 : CollState} (hl : s.loaded = true)
    (hok : CountOk s)
    (hrun : updateOneWithReplacement s f u = (Except.ok r, s2)) :
    CountOk s2 := by
  unfold updateOneWithReplacement at hrun
  split at hrun
  · split at hrun
    · simp at hrun
    · rename_i modified docs2 heq
      unfold DocumentOperations.updateDocument at heq
      have hlen := (replaceDocument_ok_facts heq).2
      have hs := congrArg Prod.snd hrun
      simp only at hs
      rw [← hs]
      have hok2 : CountOk ({ s with documents := docs2 } : CollState) := by
        obtain ⟨m, hm, hc⟩ := hok
        refine ⟨m, hm, ?_⟩
        simp only
        rw [hlen]
        exact hc
      split
      · exact markDirty_CountOk (updateMetadata_CountOk_none (by exact hl) hok2)
      · exact hok2
  · split at hrun
    · have hs := congrArg Prod.snd hrun
      simp only at hs
      rw [← hs]
      exact hok
    · rename_i md heq
      split at hrun
      · simp at hrun
      · rename_i modified docs2 heq2
        unfold DocumentOperations.updateDocument at heq2
        have hlen := (replaceDocument_ok_facts heq2).2
        have hs := congrArg Prod.snd hrun
        simp only at hs
        rw [← hs]
        have hok2 : CountOk ({ s with documents := docs2 } : CollState) := by
          obtain ⟨m, hm, hc⟩ := hok
          refine ⟨m, hm, ?_⟩
          simp only
          rw [hlen]
          exact hc
        split
        · exact markDirty_CountOk (updateMetadata_CountOk_none (by exact hl) hok2)
        · exact hok2

/-- Claim C2 (counterexample): the ID-form filter {_id: "a"} matches exactly
one stored document, yet updateOne with an update that leaves the document
structurally equal returns matchedCount 0 — not 1 — because the code derives
matchedCount from modifiedCount on the ID path. -/
theorem C2_counterexample :
    DocumentOperations.countByQuery stateW.documents
      [("_id", Value.vStr "a")] = 1 ∧
    updateOne stateW (FilterOrId.byFilter [("_id", Value.vStr "a")])
        [("$set", Value.vObj (ValueFields.cons "n" (Value.vNum 1)
           ValueFields.nil))] =
      (Except.ok { matchedCount := 0, modifiedCount := 0, acknowledged := true },
       stateW) := by
  decide

/-- Claim C2 (amended): for updateOne and replaceOne on a loaded collection,
matchedCount 1 is guaranteed only on the field-based (non-ID-form) path
when the filter matches at least one document; on the one-key
`{_id: "<string>"}` path matchedCount always equals modifiedCount — so it is
0, not 1, when the matched document ends up structurally equal — and on the
operator ID path modifiedCount is 0 iff the update engine returns a
document structurally equal to the stored one. -/
theorem C2_matched_counts (s : CollState) (hl : s.loaded = true) :
    (∀ f u r s2 md, (∀ i, f ≠ [("_id", Value.vStr i)]) →
       DocumentOperations.findByQuery s.documents f = some md →
       updateOne s (FilterOrId.byFilter f) u = (Except.ok r, s2) →
       r.matchedCount = 1) ∧
    (∀ i u r s2, updateOne s (FilterOrId.byId i) u = (Except.ok r, s2) →
       r.matchedCount = r.modifiedCount) ∧
    (∀ f doc r s2 md, (∀ i, f ≠ [("_id", Value.vStr i)]) →
       DocumentOperations.findByQuery s.documents f = some md →
       replaceOne s (FilterOrId.byFilter f) doc = (Except.ok r, s2) →
       r.matchedCount = 1) ∧
    (∀ i doc r s2, replaceOne s (FilterOrId.byId i) doc = (Except.ok r, s2) →
       r.matchedCount = r.modifiedCount) ∧
    (∀ i u r s2 d, updateOne s (FilterOrId.byId i) u = (Except.ok r, s2) →
       u.any (fun kv => isOpKey kv.1) = true →
       lookupDoc s.documents i = some d →
       (r.modifiedCount = 0 ↔
        UpdateEngine.applyOperators d u = Except.ok d)) := by
  refine ⟨?_, ?_, ?_, ?_, ?_⟩
  · intro f u r s2 md hne hfq hrun
    unfold updateOne at hrun
    rw [ensureLoaded_of_loaded hl] at hrun
    simp only [FilterOrId.toFilter] at hrun
    split at hrun
    · simp at hrun
    · split at hrun
      · simp at hrun
      · split at hrun
        · simp at hrun
        · split at hrun
          · exact updateOneWithOperators_query_matched hne hfq hrun
          · exact updateOneWithReplacement_query_matched hne hfq hrun
  · intro i u r s2 hrun
    unfold updateOne at hrun
    rw [ensureLoaded_of_loaded hl] at hrun
    simp only [FilterOrId.toFilter] at hrun
    split at hrun
    · simp at hrun
    · split at hrun
      · simp at hrun
      · split at hrun
        · exact updateOneWithOperators_id_matched hrun
        · exact updateOneWithReplacement_id_matched hrun
  · intro f doc r s2 md hne hfq hrun
    unfold replaceOne at hrun
    rw [ensureLoaded_of_loaded hl] at hrun
    simp only [FilterOrId.toFilter] at hrun
    split at hrun
    · simp at hrun
    · split at hrun
      · simp at hrun
      · split at hrun
        · simp at hrun
        · split at hrun
          · rename_i heq
            rw [hfq] at heq
            cases heq
          · rename_i md2 heq
            split at hrun
            · simp at hrun
            · rename_i modified docs2 heq2
              have hr := congrArg Prod.fst hrun
              simp only at hr
              injection hr with hr2
              rw [← hr2]
  · intro i doc r s2 hrun
    unfold replaceOne at hrun
    rw [ensureLoaded_of_loaded hl] at hrun
    simp only [FilterOrId.toFilter] at hrun
    split at hrun
    · simp at hrun
    · split at hrun
      · simp at hrun
      · split at hrun
        · simp at hrun
        · rename_i modified docs2 heq2
          have hfacts := replaceDocument_ok_facts heq2
          split at hrun <;>
            · have hr := congrArg Prod.fst hrun
              simp only at hr
              injection hr with hr2
              rw [← hr2]
              simp only
              omega
  · intro i u r s2 d hrun hops hld
    unfold updateOne at hrun
    rw [ensureLoaded_of_loaded hl] at hrun
    simp only [FilterOrId.toFilter] at hrun
    split at hrun
    · simp at hrun
    · split at hrun
      · simp at hrun
      · split at hrun
        · exact updateOneWithOperators_id_modified_iff hrun hld
        · exact absurd hops (by assumption)

/-- Claim C2 (witness): the amended theorem's operator-ID conjuncts applied
to the one-document fixture and the no-op update from the counterexample. -/
theorem C2_witness :
    stateW.loaded = true ∧
    updateOne stateW (FilterOrId.byId "a")
        [("$set", Value.vObj (ValueFields.cons "n" (Value.vNum 1)
           ValueFields.nil))] =
      (Except.ok { matchedCount := 0, modifiedCount := 0, acknowledged := true },
       stateW) ∧
    (0 : Nat) = 0 :=
  ⟨rfl, by decide,
   (C2_matched_counts stateW rfl).2.1 "a"
     [("$set", Value.vObj (ValueFields.cons "n" (Value.vNum 1) ValueFields.nil))]
     { matchedCount := 0, modifiedCount := 0, acknowledged := true } stateW
     (by decide)⟩

/-- Claim C8 (counterexample): on an unloaded collection, findOne with the
invalid filter {_id: ""} does surface the validation error, but only after
the lazy load has read the collection blob through FileService — the read
counter increments, refuting "without touching backend state ... without
reading the collection blob". -/
theorem C8_counterexample :
    (findOne stateU [("_id", Value.vStr "")]).1 =
      Except.error (DBError.invalidArgument "filter id empty") ∧
    stateU.fileReads = 0 ∧
    (findOne stateU [("_id", Value.vStr "")]).2.fileReads = 1 := by
  decide

/-- Claim C8 (amended): a validation (InvalidArgument) error from any public
method surfaces to the caller immediately and leaves the state exactly as
the lazy load left it — no FileService write, no change to documents,
metadata, dirty flag, or master index beyond _ensureLoaded itself, which
runs before argument validation and may read the blob once. -/
theorem C8_validation_frame (s : CollState) :
    (∀ f m s2, findOne s f = (Except.error (DBError.invalidArgument m), s2) →
       s2 = ensureLoaded s) ∧
    (∀ f m s2, find s f = (Except.error (DBError.invalidArgument m), s2) →
       s2 = ensureLoaded s) ∧
    (∀ f m s2,
       countDocuments s f = (Except.error (DBError.invalidArgument m), s2) →
       s2 = ensureLoaded s) ∧
    (∀ f m s2, deleteOne s f = (Except.error (DBError.invalidArgument m), s2) →
       s2 = ensureLoaded s) ∧
    (∀ foi u m s2,
       updateOne s foi u = (Except.error (DBError.invalidArgument m), s2) →
       s2 = ensureLoaded s) ∧
    (∀ f u m s2,
       updateMany s f u = (Except.error (DBError.invalidArgument m), s2) →
       s2 = ensureLoaded s) ∧
    (∀ foi doc m s2,
       replaceOne s foi doc = (Except.error (DBError.invalidArgument m), s2) →
       s2 = ensureLoaded s) ∧
    (∀ doc m s2,
       insertOne s doc = (Except.error (DBError.invalidArgument m), s2) →
       s2 = ensureLoaded s) := by
  refine ⟨?_, ?_, ?_, ?_, ?_, ?_, ?_, ?_⟩
  · intro f m s2 hrun
    unfold findOne at hrun
    simp only [] at hrun
    split at hrun
    · exact (congrArg Prod.snd hrun).symm
    · split at hrun <;> simp at hrun
  · intro f m s2 hrun
    unfold find at hrun
    simp only [] at hrun
    split at hrun
    · exact (congrArg Prod.snd hrun).symm
    · split at hrun <;> simp at hrun
  · intro f m s2 hrun
    unfold countDocuments at hrun
    simp only [] at hrun
    split at hrun
    · exact (congrArg Prod.snd hrun).symm
    · split at hrun <;> simp at hrun
  · intro f m s2 hrun
    unfold deleteOne at hrun
    simp only [] at hrun
    split at hrun
    · exact (congrArg Prod.snd hrun).symm
    · split at hrun <;> (try split at hrun) <;> simp at hrun
  · intro foi u m s2 hrun
    unfold updateOne at hrun
    simp only [] at hrun
    split at hrun
    · exact (congrArg Prod.snd hrun).symm
    · split at hrun
      · exact (congrArg Prod.snd hrun).symm
      · split at hrun
        · exact (congrArg Prod.snd hrun).symm
        · split at hrun
          · exact updateOneWithOperators_error_state hrun
          · exact updateOneWithReplacement_error_state hrun
  · intro f u m s2 hrun
    unfold updateMany at hrun
    simp only [] at hrun
    split at hrun
    · exact (congrArg Prod.snd hrun).symm
    · split at hrun
      · exact (congrArg Prod.snd hrun).symm
      · split at hrun
        · exact (congrArg Prod.snd hrun).symm
        · split at hrun
          · simp at hrun
          · split at hrun
            · rename_i e docs2 heq
              have he := congrArg Prod.fst hrun
              simp only at he
              injection he with he2
              have hl1 := congrArg Prod.fst heq
              simp only at hl1
              rw [he2] at hl1
              exact absurd hl1 applyLoop_no_invalidArgument
            · simp at hrun
  · intro foi doc m s2 hrun
    unfold replaceOne at hrun
    simp only [] at hrun
    split at hrun
    · exact (congrArg Prod.snd hrun).symm
    · split at hrun
      · exact (congrArg Prod.snd hrun).symm
      · split at hrun
        · exact (congrArg Prod.snd hrun).symm
        · split at hrun
          · split at hrun
            · exact (congrArg Prod.snd hrun).symm
            · simp at hrun
          · split at hrun
            · simp at hrun
            · split at hrun
              · exact (congrArg Prod.snd hrun).symm
              · simp at hrun
  · intro doc m s2 hrun
    unfold insertOne at hrun
    simp only [] at hrun
    split at hrun
    · exact (congrArg Prod.snd hrun).symm
    · simp at hrun

/-- Claim C8 (witness): the amended theorem's findOne conjunct applied to
the unloaded fixture with the invalid empty-id filter. -/
theorem C8_witness :
    findOne stateU [("_id", Value.vStr "")] =
      (Except.error (DBError.invalidArgument "filter id empty"),
       (findOne stateU [("_id", Value.vStr "")]).2) ∧
    (findOne stateU [("_id", Value.vStr "")]).2 = ensureLoaded stateU :=
  ⟨by decide,
   (C8_validation_frame stateU).1 [("_id", Value.vStr "")] "filter id empty"
     (findOne stateU [("_id", Value.vStr "")]).2 (by decide)⟩

/-- Claim C7: a matched-nothing mutation is a no-op — on a loaded
well-formed collection, any updateOne, updateMany, replaceOne, or deleteOne
call that returns successfully while its filter matches no stored document
reports matchedCount 0 and modifiedCount 0 (respectively deletedCount 0)
with acknowledged true, and leaves the whole collection state — documents,
metadata, dirty flag, master-index entry — unchanged. -/
theorem C7_no_match_frame (s : CollState) (hl : s.loaded = true)
    (h : WF s.documents) :
    (∀ foi u r s2, updateOne s foi u = (Except.ok r, s2) →
      (∀ d ∈ DocumentOperations.findAllDocuments s.documents,
          queryMatches d foi.toFilter = false) →
      r = { matchedCount := 0, modifiedCount := 0, acknowledged := true } ∧
      s2 = s) ∧
    (∀ f u r s2, updateMany s f u = (Except.ok r, s2) →
      (∀ d ∈ DocumentOperations.findAllDocuments s.documents,
          queryMatches d f = false) →
      r = { matchedCount := 0, modifiedCount := 0, acknowledged := true } ∧
      s2 = s) ∧
    (∀ foi doc r s2, replaceOne s foi doc = (Except.ok r, s2) →
      (∀ d ∈ DocumentOperations.findAllDocuments s.documents,
          queryMatches d foi.toFilter = false) →
      r = { matchedCount := 0, modifiedCount := 0, acknowledged := true } ∧
      s2 = s) ∧
    (∀ f r s2, deleteOne s f = (Except.ok r, s2) →
      (∀ d ∈ DocumentOperations.findAllDocuments s.documents,
          queryMatches d f = false) →
      r = { deletedCount := 0, acknowledged := true } ∧ s2 = s) := by
  refine ⟨?_, ?_, ?_, ?_⟩
  · intro foi u r s2 hrun hnm
    unfold updateOne at hrun
    rw [ensureLoaded_of_loaded hl] at hrun
    simp only [] at hrun
    split at hrun
    · simp at hrun
    · split at hrun
      · simp at hrun
      · split at hrun
        · simp at hrun
        · split at hrun
          · exact updateOneWithOperators_no_match h hrun hnm
          · exact updateOneWithReplacement_no_match h hrun hnm
  · intro f u r s2 hrun hnm
    unfold updateMany at hrun
    rw [ensureLoaded_of_loaded hl] at hrun
    simp only [] at hrun
    split at hrun
    · simp at hrun
    · split at hrun
      · simp at hrun
      · split at hrun
        · simp at hrun
        · rw [findMultipleByQuery_eq_nil hnm] at hrun
          simp only [List.length_nil, if_pos] at hrun
          have hr := congrArg Prod.fst hrun
          have hs := congrArg Prod.snd hrun
          simp only at hr hs
          injection hr with hr2
          exact ⟨hr2.symm, hs.symm⟩
  · intro foi doc r s2 hrun hnm
    unfold replaceOne at hrun
    rw [ensureLoaded_of_loaded hl] at hrun
    simp only [] at hrun
    split at hrun
    · simp at hrun
    · split at hrun
      · simp at hrun
      · split at hrun
        · simp at hrun
        · split at hrun
          · rename_i idv hfeq
            rw [hfeq] at hnm
            have hnone : lookupDoc s.documents idv = none := by
              rw [lookupDoc_eq_findByQuery h]
              exact findByQuery_eq_none hnm
            rw [replaceDocument_of_none hnone] at hrun
            simp only [gt_iff_lt, Nat.lt_irrefl, if_false] at hrun
            have hr := congrArg Prod.fst hrun
            have hs := congrArg Prod.snd hrun
            simp only at hr hs
            injection hr with hr2
            exact ⟨hr2.symm, hs.symm⟩
          · split at hrun
            · have hr := congrArg Prod.fst hrun
              have hs := congrArg Prod.snd hrun
              simp only at hr hs
              injection hr with hr2
              exact ⟨hr2.symm, hs.symm⟩
            · rename_i md heq
              rw [findByQuery_eq_none hnm] at heq
              cases heq
  · intro f r s2 hrun hnm
    unfold deleteOne at hrun
    rw [ensureLoaded_of_loaded hl] at hrun
    simp only [] at hrun
    split at hrun
    · simp at hrun
    · split at hrun
      · have hdocs : s.documents = [] := by
          cases hd : s.documents with
          | nil => rfl
          | cons kd rest =>
              have hmem : kd.2 ∈ DocumentOperations.findAllDocuments s.documents := by
                unfold DocumentOperations.findAllDocuments
                rw [hd]
                exact List.mem_cons_self _ _
              have := hnm kd.2 hmem
              rw [queryMatches_nil] at this
              exact Bool.noConfusion this
        split at hrun
        · have hr := congrArg Prod.fst hrun
          have hs := congrArg Prod.snd hrun
          simp only at hr hs
          injection hr with hr2
          exact ⟨hr2.symm, hs.symm⟩
        · rename_i d0 t heq
          unfold DocumentOperations.findAllDocuments at heq
          rw [hdocs] at heq
          simp at heq
      · rename_i idv hveq
        have hnone : lookupDoc s.documents idv = none := by
          rw [lookupDoc_eq_findByQuery h]
          exact findByQuery_eq_none hnm
        simp only [deleteDocument_of_none hnone, gt_iff_lt, Nat.lt_irrefl,
                   if_false] at hrun
        have hr := congrArg Prod.fst hrun
        have hs := congrArg Prod.snd hrun
        simp only at hr hs
        injection hr with hr2
        exact ⟨hr2.symm, hs.symm⟩
      · split at hrun
        · have hr := congrArg Prod.fst hrun
          have hs := congrArg Prod.snd hrun
          simp only at hr hs
          injection hr with hr2
          exact ⟨hr2.symm, hs.symm⟩
        · next md heq =>
          rw [findByQuery_eq_none hnm] at heq
          cases heq

/-- Claim C7 (witness): the frame theorem's updateOne conjunct applied to the
one-document fixture with a filter on an absent field. -/
theorem C7_witness :
    stateW.loaded = true ∧ WF stateW.documents ∧
    updateOne stateW (FilterOrId.byFilter [("x", Value.vNum 9)])
        [("$set", Value.vObj (ValueFields.cons "n" (Value.vNum 2) ValueFields.nil))] =
      (Except.ok { matchedCount := 0, modifiedCount := 0, acknowledged := true },
       stateW) ∧
    (({ matchedCount := 0, modifiedCount := 0, acknowledged := true } : UpdateResult) =
       { matchedCount := 0, modifiedCount := 0, acknowledged := true } ∧
     stateW = stateW) :=
  ⟨rfl, by decide, by decide,
   (C7_no_match_frame stateW rfl (by decide)).1
     (FilterOrId.byFilter [("x", Value.vNum 9)])
     [("$set", Value.vObj (ValueFields.cons "n" (Value.vNum 2) ValueFields.nil))]
     { matchedCount := 0, modifiedCount := 0, acknowledged := true } stateW
     (by decide) (by decide)⟩

/-- Claim C4: on any state satisfying the clean-count invariant (metadata
documentCount equal to the documents-map size once loaded, and on the
blob), every successful public mutation — insertOne, updateOne, updateMany,
replaceOne, deleteOne — re-establishes
CollectionMetadata.documentCount = size of the in-memory documents map
before it returns. -/
theorem C4_documentCount_invariant (s : CollState) (hInv : CountInv s) :
    (∀ doc r s2, insertOne s doc = (Except.ok r, s2) → CountOk s2) ∧
    (∀ foi u r s2, updateOne s foi u = (Except.ok r, s2) → CountOk s2) ∧
    (∀ f u r s2, updateMany s f u = (Except.ok r, s2) → CountOk s2) ∧
    (∀ foi doc r s2, replaceOne s foi doc = (Except.ok r, s2) → CountOk s2) ∧
    (∀ f r s2, deleteOne s f = (Except.ok r, s2) → CountOk s2) := by
  have hok0 : CountOk (ensureLoaded s) := ensureLoaded_CountOk hInv
  have hl0 : (ensureLoaded s).loaded = true := ensureLoaded_loaded s
  refine ⟨?_, ?_, ?_, ?_, ?_⟩
  · intro doc r s2 hrun
    unfold insertOne at hrun
    simp only [] at hrun
    generalize ht : ensureLoaded s = t at hrun hok0 hl0
    obtain ⟨m, hm, hc⟩ := hok0
    split at hrun
    · simp at hrun
    · rename_i inserted docs2 nid heq
      have hs := congrArg Prod.snd hrun
      simp only at hs
      rw [← hs]
      exact markDirty_CountOk
        (updateMetadata_CountOk_some (by exact hl0) (by exact hm))
  · intro foi u r s2 hrun
    unfold updateOne at hrun
    simp only [] at hrun
    generalize ht : ensureLoaded s = t at hrun hok0 hl0
    split at hrun
    · simp at hrun
    · split at hrun
      · simp at hrun
      · split at hrun
        · simp at hrun
        · split at hrun
          · exact updateOneWithOperators_CountOk hl0 hok0 hrun
          · exact updateOneWithReplacement_CountOk hl0 hok0 hrun
  · intro f u r s2 hrun
    unfold updateMany at hrun
    simp only [] at hrun
    generalize ht : ensureLoaded s = t at hrun hok0 hl0
    split at hrun
    · simp at hrun
    · split at hrun
      · simp at hrun
      · split at hrun
        · simp at hrun
        · split at hrun
          · have hs := congrArg Prod.snd hrun
            simp only at hs
            rw [← hs]
            exact hok0
          · split at hrun
            · simp at hrun
            · rename_i modified docs2 heq
              have hlen := applyLoop_ok_length heq
              have hs := congrArg Prod.snd hrun
              simp only at hs
              rw [← hs]
              have hok2 : CountOk ({ t with documents := docs2 } : CollState) := by
                obtain ⟨m, hm, hc⟩ := hok0
                refine ⟨m, hm, ?_⟩
                simp only
                rw [hlen]
                exact hc
              split
              · exact markDirty_CountOk
                  (updateMetadata_CountOk_none (by exact hl0) hok2)
              · exact hok2
  · intro foi doc r s2 hrun
    unfold replaceOne at hrun
    simp only [] at hrun
    generalize ht : ensureLoaded s = t at hrun hok0 hl0
    split at hrun
    · simp at hrun
    · split at hrun
      · simp at hrun
      · split at hrun
        · simp at hrun
        · split at hrun
          · rename_i idv hfeq
            split at hrun
            · simp at hrun
            · rename_i modified docs2 heq
              have hlen := (replaceDocument_ok_facts heq).2
              have hs := congrArg Prod.snd hrun
              simp only at hs
              rw [← hs]
              have hok2 : CountOk ({ t with documents := docs2 } : CollState) := by
                obtain ⟨m, hm, hc⟩ := hok0
                refine ⟨m, hm, ?_⟩
                simp only
                rw [hlen]
                exact hc
              split
              · exact markDirty_CountOk
                  (updateMetadata_CountOk_none (by exact hl0) hok2)
              · exact hok2
          · split at hrun
            · have hs := congrArg Prod.snd hrun
              simp only at hs
              rw [← hs]
              exact hok0
            · rename_i md heq
              split at hrun
              · simp at hrun
              · rename_i modified docs2 heq2
                have hlen := (replaceDocument_ok_facts heq2).2
                have hs := congrArg Prod.snd hrun
                simp only at hs
                rw [← hs]
                have hok2 : CountOk ({ t with documents := docs2 } : CollState) := by
                  obtain ⟨m, hm, hc⟩ := hok0
                  refine ⟨m, hm, ?_⟩
                  simp only
                  rw [hlen]
                  exact hc
                split
                · exact markDirty_CountOk
                    (updateMetadata_CountOk_none (by exact hl0) hok2)
                · exact hok2
  · intro f r s2 hrun
    unfold deleteOne at hrun
    simp only [] at hrun
    generalize ht : ensureLoaded s = t at hrun hok0 hl0
    split at hrun
    · simp at hrun
    · split at hrun
      · split at hrun
        · have hs := congrArg Prod.snd hrun
          simp only at hs
          rw [← hs]
          exact hok0
        · rename_i d0 tl heq
          have hs := congrArg Prod.snd hrun
          simp only at hs
          rw [← hs]
          obtain ⟨m, hm, hc⟩ := hok0
          split
          · exact markDirty_CountOk
              (updateMetadata_CountOk_some (by exact hl0) (by exact hm))
          · rename_i hcnt
            rw [deleteDocument_zero_snd hcnt]
            exact ⟨m, hm, hc⟩
      · rename_i idv hveq
        have hs := congrArg Prod.snd hrun
        simp only at hs
        rw [← hs]
        obtain ⟨m, hm, hc⟩ := hok0
        split
        · exact markDirty_CountOk
            (updateMetadata_CountOk_some (by exact hl0) (by exact hm))
        · rename_i hcnt
          rw [deleteDocument_zero_snd hcnt]
          exact ⟨m, hm, hc⟩
      · split at hrun
        · have hs := congrArg Prod.snd hrun
          simp only at hs
          rw [← hs]
          exact hok0
        · rename_i md heq
          have hs := congrArg Prod.snd hrun
          simp only at hs
          rw [← hs]
          obtain ⟨m, hm, hc⟩ := hok0
          split
          · exact markDirty_CountOk
              (updateMetadata_CountOk_some (by exact hl0) (by exact hm))
          · rename_i hcnt
            rw [deleteDocument_zero_snd hcnt]
            exact ⟨m, hm, hc⟩

/-- Claim C4 (witness): the invariant theorem's insertOne conjunct applied
to the one-document fixture. -/
theorem C4_witness :
    CountInv stateW ∧ CountOk (insertOne stateW [("_id", Value.vStr "b")]).2 :=
  ⟨by decide,
   (C4_documentCount_invariant stateW (by decide)).1 [("_id", Value.vStr "b")]
     { insertedId := "b", acknowledged := true }
     (insertOne stateW [("_id", Value.vStr "b")]).2 (by decide)⟩

/-- Claim C5: the `{_id: "<string>"}` one-key filter dispatch of findOne and
deleteOne is a pure optimisation — on a loaded well-formed collection the
direct-lookup fast path returns exactly the result and state that the
QueryEngine path (the same method with the fast path removed) yields. -/
theorem C5_id_fastpath (s : CollState) (i : String) (hl : s.loaded = true)
    (h : WF s.documents) :
    findOne s [("_id", Value.vStr i)] =
      findOneViaQueryEngine s [("_id", Value.vStr i)] ∧
    deleteOne s [("_id", Value.vStr i)] =
      deleteOneViaQueryEngine s [("_id", Value.vStr i)] := by
  constructor
  · unfold findOne findOneViaQueryEngine
    rw [ensureLoaded_of_loaded hl]
    rcases hvv : validateFilter [("_id", Value.vStr i)] with e | u
    · simp [hvv]
    · simp only [hvv]
      unfold DocumentOperations.findDocumentById
      rw [lookupDoc_eq_findByQuery h]
  · unfold deleteOne deleteOneViaQueryEngine
    rw [ensureLoaded_of_loaded hl]
    rcases hvv : validateFilter [("_id", Value.vStr i)] with e | u
    · simp [hvv]
    · simp only [hvv]
      rcases hfq : DocumentOperations.findByQuery s.documents
          [("_id", Value.vStr i)] with _ | md
      · have hnone : lookupDoc s.documents i = none := by
          rw [lookupDoc_eq_findByQuery h]; exact hfq
        simp only [hfq, deleteDocument_of_none hnone, gt_iff_lt,
                   Nat.lt_irrefl, if_false]
      · have hid : docIdStr md = i := findByQuery_id_docIdStr hfq
        simp only [hfq, hid]

/-- Claim C5 (witness): the equivalence applied to the one-document fixture
and its stored id. -/
theorem C5_witness :
    stateW.loaded = true ∧ WF stateW.documents ∧
    findOne stateW [("_id", Value.vStr "a")] =
      findOneViaQueryEngine stateW [("_id", Value.vStr "a")] :=
  ⟨rfl, by decide, (C5_id_fastpath stateW "a" rfl (by decide)).1⟩

/-- Claim C6: on a loaded collection, find({}) returns all stored documents,
countDocuments({}) returns the total number of stored documents, and the
empty filter matches every document. -/
theorem C6_empty_filter (s : CollState) (hl : s.loaded = true) :
    find s [] = (Except.ok (s.documents.map Prod.snd), s) ∧
    countDocuments s [] = (Except.ok s.documents.length, s) ∧
    (∀ d : Doc, queryMatches d [] = true) := by
  refine ⟨?_, ?_, fun d => rfl⟩
  · simp only [find, ensureLoaded_of_loaded hl]
    rfl
  · simp only [countDocuments, ensureLoaded_of_loaded hl]
    rfl

/-- Claim C6 (witness): the theorem applied to the one-document fixture. -/
theorem C6_witness :
    stateW.loaded = true ∧
    find stateW [] = (Except.ok (stateW.documents.map Prod.snd), stateW) :=
  ⟨rfl, (C6_empty_filter stateW rfl).1⟩

/-- Claim C10: save() writes the blob through FileService iff the collection
is loaded and dirty; a successful save clears the dirty flag and persists
the in-memory documents, a save on a clean or never-loaded collection
changes nothing, and save is idempotent. -/
theorem C10_save_idempotent (s : CollState)
    (hm : s.loaded = true → s.collectionMetadata ≠ none) :
    ((s.loaded && s.dirty) = true →
      (save s).fileWrites = s.fileWrites + 1 ∧ (save s).dirty = false ∧
      (save s).blob.documents = s.documents) ∧
    ((s.loaded && s.dirty) = false → save s = s) ∧
    save (save s) = save s := by
  by_cases hc : (s.loaded && s.dirty) = true
  · have hc2 := hc
    simp only [Bool.and_eq_true] at hc2
    obtain ⟨hl, hd⟩ := hc2
    obtain ⟨m, hmm2⟩ := Option.ne_none_iff_exists'.mp (hm hl)
    have hsave : save s = { s with
        blob := { documents := s.documents, metadata := m },
        dirty := false, fileWrites := s.fileWrites + 1 } := by
      unfold save saveData
      rw [if_pos hc, hmm2]
    refine ⟨fun _ => ⟨by rw [hsave], by rw [hsave], by rw [hsave]⟩,
            fun hcf => absurd hc (by simp [hcf]), ?_⟩
    rw [hsave]
    unfold save
    rw [if_neg (by simp)]
  · have h0 : save s = s := by
      unfold save
      rw [if_neg hc]
    exact ⟨fun hct => absurd hct hc, fun _ => h0, by rw [h0, h0]⟩

/-- Claim C10 (witness): the theorem applied to the dirtied fixture. -/
theorem C10_witness :
    ((markDirty stateW).loaded = true →
      (markDirty stateW).collectionMetadata ≠ none) ∧
    (((markDirty stateW).loaded && (markDirty stateW).dirty) = true →
      (save (markDirty stateW)).fileWrites = (markDirty stateW).fileWrites + 1 ∧
      (save (markDirty stateW)).dirty = false ∧
      (save (markDirty stateW)).blob.documents = (markDirty stateW).documents) :=
  ⟨by decide, (C10_save_idempotent (markDirty stateW) (by decide)).1⟩

end GASDB
